import Mathlib

/-!
Player subsystem of freeablo (`apps/freeablo/faworld/player.cpp`).

A shallow embedding of the combat resolver (`Player::checkHit`,
`Player::meleeDamageVs`), of `Player::updateSprites` (armour code, weapon
classification, resource keys), of the drop placement search
(`Player::dropItem`) and of the persistence of a player (`Player::save` and the
loading constructor), followed by the properties established about them.

Conventions of the embedding:

* `int32_t` values are integers; every `+`, `-`, `*` of the source is followed
  by `wrap32`, reduction to the two's complement range `[-2^31, 2^31)`;
  `/` is the truncating division `Int.tdiv`, `%` the truncating `Int.tmod`.
* the draws of `Random::randomInRange` are arguments of the embedded functions.
* `release_assert` failing is the result `none`.
* the collaborators whose code is not in `player.cpp` (the level, the geometry
  helpers of `Misc`, the serialization of the base actor and of the stats
  block) are records of functions the embedded code is parameterised by.
* `boost::format` is string concatenation; the save stream is the list of what
  was given to the saver.
-/

namespace FAWorld

/-! ## Machine integers -/

/-- Reduction of an integer to the signed 32-bit range `[-2^31, 2^31)`. -/
def wrap32 (x : Int) : Int := (x + 2147483648) % 4294967296 - 2147483648

/-- The value is representable as an `int32_t`. -/
def inInt32 (x : Int) : Prop := -2147483648 ≤ x ∧ x ≤ 2147483647

instance (x : Int) : Decidable (inInt32 x) := by
  unfold inInt32; infer_instance

/-- The `int32_t` addition. -/
def add32 (a b : Int) : Int := wrap32 (a + b)

/-- The `int32_t` subtraction. -/
def sub32 (a b : Int) : Int := wrap32 (a - b)

/-- The `int32_t` multiplication. -/
def mul32 (a b : Int) : Int := wrap32 (a * b)

/-- The `int32_t` division of the source, truncating toward zero. -/
def div32 (a b : Int) : Int := wrap32 (a.tdiv b)

/-! ## Data model -/

/-- The enumeration `PlayerClass`. -/
inductive PlayerClass
  | warrior
  | rogue
  | sorcerer
  deriving DecidableEq, Repr

/-- The part of a `Player` read by the combat resolver: the class, the
dexterity of `mPlayerStats`, the values returned by the getters
`getArmorPenetration`, `getCharacterLevel`, `getPercentDamageBonus`,
`getCharacterBaseDamage`, `getDamageBonus`, and the two damage bounds of
`getItemBonus()`. -/
structure Player where
  mPlayerClass : PlayerClass
  mDexterity : Int
  armorPenetration : Int
  characterLevel : Int
  percentDamageBonus : Int
  characterBaseDamage : Int
  damageBonus : Int
  minAttackDamage : Int
  maxAttackDamage : Int
  deriving Repr

/-! ## Combat resolver -/

/-- The function `boost::algorithm::clamp(val, lo, hi)`:
`val < lo ? lo : hi < val ? hi : val`. -/
def clamp (val lo hi : Int) : Int :=
  if val < lo then lo else if hi < val then hi else val

/-- The value of `toHit` in `Player::checkHit` right before the clamp
(lines 122-128), `armor` being `enemy->getArmor()`. -/
def toHitRaw (p : Player) (armor : Int) : Int :=
  let toHit := div32 p.mDexterity 2
  let toHit := add32 toHit p.armorPenetration
  let toHit := sub32 toHit armor
  let toHit := add32 toHit p.characterLevel
  let toHit := add32 toHit 50
  if p.mPlayerClass = PlayerClass.warrior then add32 toHit 20 else toHit

/-- The value of `toHit` the roll is compared against (line 129). -/
def hitThreshold (p : Player) (armor : Int) : Int :=
  clamp (toHitRaw p armor) 5 95

/-- The function `Player::checkHit`, `roll` being the draw
`Random::randomInRange(0, 99)`. -/
def checkHit (p : Player) (armor roll : Int) : Bool :=
  decide (roll < hitThreshold p armor)

/-- The hit threshold in the words of the specification: the sum over the
integers, clamped to `[5, 95]`. -/
def specThreshold (p : Player) (armor : Int) : Int :=
  max 5 (min 95 (p.mDexterity.tdiv 2 + p.armorPenetration - armor + p.characterLevel + 50
    + (if p.mPlayerClass = PlayerClass.warrior then 20 else 0)))

/-- None of the `int32_t` operations of `Player::checkHit` overflows: the
inputs are `int32_t` values and so is every partial sum. -/
def checkHitNoOverflow (p : Player) (armor : Int) : Prop :=
  inInt32 p.mDexterity ∧
  inInt32 (p.mDexterity.tdiv 2 + p.armorPenetration) ∧
  inInt32 (p.mDexterity.tdiv 2 + p.armorPenetration - armor) ∧
  inInt32 (p.mDexterity.tdiv 2 + p.armorPenetration - armor + p.characterLevel) ∧
  inInt32 (p.mDexterity.tdiv 2 + p.armorPenetration - armor + p.characterLevel + 50) ∧
  inInt32 (p.mDexterity.tdiv 2 + p.armorPenetration - armor + p.characterLevel + 50
    + (if p.mPlayerClass = PlayerClass.warrior then 20 else 0))

instance (p : Player) (armor : Int) : Decidable (checkHitNoOverflow p armor) := by
  unfold checkHitNoOverflow; infer_instance

/-- The function `Player::meleeDamageVs`: `draw` is the value of
`Random::randomInRange(bonus.minAttackDamage, bonus.maxAttackDamage)` and
`critRoll` the value of `Random::randomInRange(0, 99)`; the result is the
`int32_t` value of `dmg`, which the `return` converts to `double` exactly. The
target actor is not an argument: the source does not name its parameter. -/
def meleeDamageVs (p : Player) (draw critRoll : Int) : Int :=
  let dmg := draw
  let dmg := add32 dmg (div32 (mul32 dmg p.percentDamageBonus) 100)
  let dmg := add32 dmg p.characterBaseDamage
  let dmg := add32 dmg p.damageBonus
  if p.mPlayerClass = PlayerClass.warrior ∧ critRoll < p.characterLevel then mul32 dmg 2 else dmg

/-- The damage in the words of the specification, over the integers: the draw,
plus its truncated percentage, plus the base damage and the flat bonus, doubled
for a warrior whose critical roll is below the character level. -/
def specDamage (p : Player) (draw critRoll : Int) : Int :=
  let base := draw + (draw * p.percentDamageBonus).tdiv 100 + p.characterBaseDamage + p.damageBonus
  if p.mPlayerClass = PlayerClass.warrior ∧ critRoll < p.characterLevel then 2 * base else base

/-- None of the `int32_t` operations of `Player::meleeDamageVs` overflows. -/
def meleeNoOverflow (p : Player) (draw critRoll : Int) : Prop :=
  inInt32 draw ∧
  inInt32 (draw * p.percentDamageBonus) ∧
  inInt32 (draw + (draw * p.percentDamageBonus).tdiv 100) ∧
  inInt32 (draw + (draw * p.percentDamageBonus).tdiv 100 + p.characterBaseDamage) ∧
  inInt32 (draw + (draw * p.percentDamageBonus).tdiv 100 + p.characterBaseDamage
    + p.damageBonus) ∧
  inInt32 (specDamage p draw critRoll)

instance (p : Player) (draw critRoll : Int) : Decidable (meleeNoOverflow p draw critRoll) := by
  unfold meleeNoOverflow; infer_instance

/-! ## Concrete players used in the scenarios -/

/-- The attacker of the scenario of the specification: a warrior of level 10
with dexterity 40 and armor penetration 5. -/
def scenarioWarrior : Player :=
  { mPlayerClass := PlayerClass.warrior, mDexterity := 40, armorPenetration := 5,
    characterLevel := 10, percentDamageBonus := 0, characterBaseDamage := 0,
    damageBonus := 0, minAttackDamage := 1, maxAttackDamage := 1 }

/-- A rogue whose items give a damage range of exactly 100000 and a percent
damage bonus of 30000: the product exceeds the `int32_t` range. -/
def overflowRogue : Player :=
  { mPlayerClass := PlayerClass.rogue, mDexterity := 0, armorPenetration := 0,
    characterLevel := 1, percentDamageBonus := 30000, characterBaseDamage := 0,
    damageBonus := 0, minAttackDamage := 100000, maxAttackDamage := 100000 }

/-- A rogue of level 3 with a damage range of exactly 5, a percent bonus of 50,
base damage 4 and flat bonus 1. -/
def plainRogue : Player :=
  { mPlayerClass := PlayerClass.rogue, mDexterity := 10, armorPenetration := 0,
    characterLevel := 3, percentDamageBonus := 50, characterBaseDamage := 4,
    damageBonus := 1, minAttackDamage := 5, maxAttackDamage := 5 }

/-- A player without any bonus whose damage range is the single value `v`. -/
def bareRogue (v : Int) : Player :=
  { mPlayerClass := PlayerClass.rogue, mDexterity := 0, armorPenetration := 0,
    characterLevel := 0, percentDamageBonus := 0, characterBaseDamage := 0,
    damageBonus := 0, minAttackDamage := v, maxAttackDamage := v }

/-! ## Items and the weapon classification of `Player::updateSprites` -/

/-- Modelled from the spec: the declaration of the enumeration `ItemType`
(`itemenums.h`) is not in the source. The enumerators are those `player.cpp`
names; `other code` stands for every enumerator it does not name. -/
inductive ItemType
  | sword
  | axe
  | bow
  | mace
  | shield
  | staff
  | lightArmor
  | mediumArmor
  | heavyArmor
  | gold
  | other (code : Nat)
  deriving DecidableEq, Repr

/-- Modelled from the spec: the declaration of the enumeration `ItemEquipType`
(`itemenums.h`) is not in the source. `player.cpp` names `oneHanded` only;
`twoHanded` is the equip location the spec names for the other axes and
`other code` stands for every further enumerator. -/
inductive ItemEquipType
  | oneHanded
  | twoHanded
  | other (code : Nat)
  deriving DecidableEq, Repr

/-- Modelled from the spec: the class `Item` is declared outside `player.cpp`;
an item is what `isEmpty()`, `getType()`, `getEquipLoc()` and `mCount` give. An
inventory slot always holds an `Item` object, possibly an empty one. -/
structure Item where
  isEmpty : Bool
  getType : ItemType
  getEquipLoc : ItemEquipType
  mCount : Int
  deriving DecidableEq, Repr

/-- The switch of lines 192-232 of `Player::updateSprites` on the type of the
only occupied hand. -/
def oneHandCode (hand : Item) : String :=
  match hand.getType with
  | ItemType.axe => if hand.getEquipLoc = ItemEquipType.oneHanded then "s" else "a"
  | ItemType.mace => "m"
  | ItemType.bow => "b"
  | ItemType.shield => "u"
  | ItemType.sword => "s"
  | _ => "n"

/-- The if-chain of lines 237-247 of `Player::updateSprites` for two occupied
hands; `weapon` is the value of the variable before the chain, which stays when
no condition holds. -/
def twoHandCode (left right : Item) (weapon : String) : String :=
  if (left.getType = ItemType.sword ∧ right.getType = ItemType.shield) ∨
      (left.getType = ItemType.shield ∧ right.getType = ItemType.sword) then "d"
  else if left.getType = ItemType.bow ∧ right.getType = ItemType.bow then "b"
  else if left.getType = ItemType.staff ∧ right.getType = ItemType.staff then "t"
  else if left.getType = ItemType.mace ∨ right.getType = ItemType.mace then "h"
  else weapon

/-- The weapon code of `Player::updateSprites` (lines 154 and 179-251) for the
items of the left and of the right hand: `some` of the value of `weaponCode`, or
`none` when `release_assert(!weapon.empty())` fails. -/
def weaponCode (left right : Item) : Option String :=
  let weapon := ""
  if left.isEmpty && right.isEmpty then
    some "n"
  else if (left.isEmpty && !right.isEmpty) || (!left.isEmpty && right.isEmpty) then
    let hand := if !left.isEmpty then left else right
    some (oneHandCode hand)
  else if !left.isEmpty && !right.isEmpty then
    let weapon := twoHandCode left right weapon
    if !weapon.isEmpty then some weapon else none
  else
    some weapon

/-- One of the four pairwise rules of the weapon classification applies to the
types of the two hands. -/
def pairRuleMatches (left right : Item) : Prop :=
  ((left.getType = ItemType.sword ∧ right.getType = ItemType.shield) ∨
    (left.getType = ItemType.shield ∧ right.getType = ItemType.sword)) ∨
  (left.getType = ItemType.bow ∧ right.getType = ItemType.bow) ∨
  (left.getType = ItemType.staff ∧ right.getType = ItemType.staff) ∨
  (left.getType = ItemType.mace ∨ right.getType = ItemType.mace)

instance (left right : Item) : Decidable (pairRuleMatches left right) := by
  unfold pairRuleMatches; infer_instance

/-- A non-empty item of the given type and equip location. -/
def mkItem (t : ItemType) (loc : ItemEquipType) : Item :=
  { isEmpty := false, getType := t, getEquipLoc := loc, mCount := 1 }

/-- The default-constructed `Item`, `Item{}`: an empty item. -/
def emptyItem : Item :=
  { isEmpty := true, getType := ItemType.other 0, getEquipLoc := ItemEquipType.other 0,
    mCount := 0 }

/-! ## Drop placement search (`Player::dropItem`) -/

/-- A position: the `std::pair<int32_t, int32_t>` of `getPos().current()`. -/
abbrev Pos := Int × Int

/-- The class `FAWorld::Tile`, as far as `player.cpp` uses it: the two
coordinates it is built from and compared by. -/
structure Tile where
  x : Int
  y : Int
  deriving DecidableEq, Repr

/-- The tile `FAWorld::Tile(pos.first, pos.second)` of a position. -/
def Tile.ofPos (pos : Pos) : Tile := { x := pos.1, y := pos.2 }

/-- Modelled from the spec: the level (`GameLevel`) is a collaborator whose
code is not in the source; it is given by its interface (section 6 of the
specification), as functions on a level state `L`: `isPassableFor(x, y, actor)`
for this player, `getItemMap().getItemAt(tile)`, and `dropItem(item, actor,
tile)`, which answers whether it took the item and leaves a new level state. -/
structure LevelOps (L : Type) where
  isPassableFor : L → Int → Int → Bool
  getItemAt : L → Tile → Option Item
  dropItem : L → Item → Tile → Bool × L

/-- Modelled from the spec: the geometry helpers of the namespace `Misc` are
not in the source: `getVec(from, to)`, `getVecDir(vec)`,
`getNextPosByDir(pos, dir)` and the enumerator `Direction::south`. A
`Misc::Direction` is represented by the `int32_t` it is cast to. -/
structure MiscOps where
  getVec : Pos → Pos → Pos
  getVecDir : Pos → Int
  getNextPosByDir : Pos → Int → Pos
  south : Int

/-- The part of the player and of its surroundings `Player::dropItem` reads and
writes: the level `getLevel()`, the position `getPos().current()` and the item
of the cursor slot of `mInventory`. -/
structure DropState (L : Type) where
  level : L
  curPos : Pos
  cursorHeld : Item

/-- A call `Player::dropItem` makes on a collaborator: the validity check
`isPosOk` of a position with its answer, `Level::dropItem` of an item at a tile
with its answer, and `Inventory::setCursorHeld`. -/
inductive Call
  | isPosOk (pos : Pos) (ok : Bool)
  | levelDropItem (item : Item) (tile : Tile) (accepted : Bool)
  | setCursorHeld (item : Item)
  deriving DecidableEq, Repr

/-- What a run of `Player::dropItem` leaves: the boolean it returns, the state
after it, and the calls it made on the level and the inventory, in order. -/
structure DropOutcome (L : Type) where
  result : Bool
  state : DropState L
  calls : List Call

/-- The outcome with the calls `cs` made before it. -/
def DropOutcome.after {L : Type} (cs : List Call) (o : DropOutcome L) : DropOutcome L :=
  { o with calls := cs ++ o.calls }

/-- The lambda `isPosOk` of `Player::dropItem` (lines 297-299). -/
def isPosOk {L : Type} (ops : LevelOps L) (level : L) (pos : Pos) : Bool :=
  ops.isPassableFor level pos.1 pos.2 && !(ops.getItemAt level (Tile.ofPos pos)).isSome

/-- The lambda `tryDrop` of `Player::dropItem` (lines 288-295): a copy of the
cursor item is handed to the level; the cursor slot is set to the empty item
when the level took it. -/
def tryDrop {L : Type} (ops : LevelOps L) (s : DropState L) (pos : Pos) : DropOutcome L :=
  let cursorItem := s.cursorHeld
  let answer := ops.dropItem s.level cursorItem (Tile.ofPos pos)
  if answer.1 then
    { result := true
      state := { level := answer.2, curPos := s.curPos, cursorHeld := emptyItem }
      calls := [Call.levelDropItem cursorItem (Tile.ofPos pos) true,
        Call.setCursorHeld emptyItem] }
  else
    { result := false
      state := { level := answer.2, curPos := s.curPos, cursorHeld := s.cursorHeld }
      calls := [Call.levelDropItem cursorItem (Tile.ofPos pos) false] }

/-- The direction of line 311:
`(static_cast<int32_t>(initialDir) + diff + directionCnt) % directionCnt`. -/
def rotateDir (initialDir diff : Int) : Int :=
  (add32 (add32 initialDir diff) 8).tmod 8

/-- Lines 317-319 of `Player::dropItem`: the player's own tile, after the
loop. -/
def dropFallback {L : Type} (ops : LevelOps L) (s : DropState L) : DropOutcome L :=
  if isPosOk ops s.level s.curPos then
    (tryDrop ops s s.curPos).after [Call.isPosOk s.curPos true]
  else
    { result := false, state := s, calls := [Call.isPosOk s.curPos false] }

/-- The loop of lines 309-315 over the remaining values of `diff`, followed by
lines 317-319 when it ends without a `return`. -/
def dropLoop {L : Type} (ops : LevelOps L) (M : MiscOps) (s : DropState L) (initialDir : Int) :
    List Int → DropOutcome L
  | [] => dropFallback ops s
  | diff :: rest =>
    let dir := rotateDir initialDir diff
    let pos := M.getNextPosByDir s.curPos dir
    if isPosOk ops s.level pos then
      (tryDrop ops s pos).after [Call.isPosOk pos true]
    else
      (dropLoop ops M s initialDir rest).after [Call.isPosOk pos false]

/-- The function `Player::dropItem`. -/
def dropItem {L : Type} (ops : LevelOps L) (M : MiscOps) (s : DropState L) (clickedTile : Tile) :
    DropOutcome L :=
  let initialDir := M.getVecDir (M.getVec s.curPos (clickedTile.x, clickedTile.y))
  let curPos := s.curPos
  if clickedTile = Tile.ofPos curPos then
    if isPosOk ops s.level curPos then
      (tryDrop ops s curPos).after [Call.isPosOk curPos true]
    else
      (dropLoop ops M s M.south [0, -1, 1]).after [Call.isPosOk curPos false]
  else
    dropLoop ops M s initialDir [0, -1, 1]

/-- The positions the validity check was asked about, in order. -/
def checkedPositions : List Call → List Pos
  | [] => []
  | Call.isPosOk pos _ :: cs => pos :: checkedPositions cs
  | _ :: cs => checkedPositions cs

/-- The tiles handed to `Level::dropItem`, in order. -/
def levelDropTiles : List Call → List Tile
  | [] => []
  | Call.levelDropItem _ tile _ :: cs => tile :: levelDropTiles cs
  | _ :: cs => levelDropTiles cs

/-- The initial direction of the directional search: the direction from the
player toward the clicked tile, or south when the clicked tile is the player's
own. -/
def searchDir (M : MiscOps) (curPos : Pos) (clickedTile : Tile) : Int :=
  if clickedTile = Tile.ofPos curPos then M.south
  else M.getVecDir (M.getVec curPos (clickedTile.x, clickedTile.y))

/-- The first candidate in the words of the specification: the neighbour of
the player's position in the initial direction `d0`. -/
def candidateAhead (M : MiscOps) (curPos : Pos) (d0 : Int) : Pos :=
  M.getNextPosByDir curPos d0

/-- The second candidate in the words of the specification: the neighbour in
the direction `(d0 - 1) mod 8`. -/
def candidateBefore (M : MiscOps) (curPos : Pos) (d0 : Int) : Pos :=
  M.getNextPosByDir curPos ((d0 - 1) % 8)

/-- The third candidate in the words of the specification: the neighbour in
the direction `(d0 + 1) mod 8`. -/
def candidateAfter (M : MiscOps) (curPos : Pos) (d0 : Int) : Pos :=
  M.getNextPosByDir curPos ((d0 + 1) % 8)

/-- The candidate the loop of `Player::dropItem` computes for a value of
`diff`. -/
def loopCandidate (M : MiscOps) (curPos : Pos) (d0 diff : Int) : Pos :=
  M.getNextPosByDir curPos (rotateDir d0 diff)

/-- The four tiles of the search: the three candidates of the loop for the
direction `d0`, then the player's own position. -/
def searchTiles (M : MiscOps) (curPos : Pos) (d0 : Int) : List Pos :=
  [loopCandidate M curPos d0 0, loopCandidate M curPos d0 (-1), loopCandidate M curPos d0 1,
    curPos]

/-- The first position of a list that passes the validity check. -/
def firstValid {L : Type} (ops : LevelOps L) (level : L) (tiles : List Pos) : Option Pos :=
  tiles.find? (fun pos => isPosOk ops level pos)

/-- The calls of the validity check on the player's own tile made before the
directional search: one when the clicked tile is the player's own. -/
def ownTileCheck (curPos : Pos) (clickedTile : Tile) : List Pos :=
  if clickedTile = Tile.ofPos curPos then [curPos] else []

/-- The calls of the validity check for a list of positions with their
answers. -/
def checkCalls (l : List (Pos × Bool)) : List Call :=
  l.map (fun e => Call.isPosOk e.1 e.2)

/-! ### A concrete level and compass for the scenarios -/

/-- A level given by its impassable positions, the items lying on its tiles
and the tiles at which its `dropItem` refuses an item. -/
structure GridLevel where
  walls : List Pos
  items : List (Tile × Item)
  refusing : List Tile
  deriving DecidableEq, Repr

/-- The item lying on a tile of a `GridLevel`. -/
def GridLevel.itemAt (l : GridLevel) (t : Tile) : Option Item :=
  (l.items.find? (fun e => decide (e.1 = t))).map (fun e => e.2)

/-- The operations of a `GridLevel`: a drop is taken unless the tile refuses
or holds an item. -/
def gridOps : LevelOps GridLevel :=
  { isPassableFor := fun l x y => !(l.walls.contains (x, y))
    getItemAt := fun l t => l.itemAt t
    dropItem := fun l item t =>
      if l.refusing.contains t || (l.itemAt t).isSome then (false, l)
      else (true, { l with items := (t, item) :: l.items }) }

/-- The sign of an integer, as -1, 0 or 1. -/
def sgn (a : Int) : Int := if a < 0 then -1 else if a = 0 then 0 else 1

/-- The step of a compass direction, numbered 0 to 7 from south, turning by
one eighth at each step. -/
def compassStep (dir : Int) : Pos :=
  if dir = 0 then (1, 1) else if dir = 1 then (0, 1) else if dir = 2 then (-1, 1)
  else if dir = 3 then (-1, 0) else if dir = 4 then (-1, -1) else if dir = 5 then (0, -1)
  else if dir = 6 then (1, -1) else if dir = 7 then (1, 0) else (0, 0)

/-- A compass for the scenarios: the direction of a vector is the one whose
step has the signs of the vector. -/
def compass : MiscOps :=
  { getVec := fun a b => (b.1 - a.1, b.2 - a.2)
    getVecDir := fun v =>
      match ([0, 1, 2, 3, 4, 5, 6, 7] : List Int).find?
        (fun d => decide (compassStep d = (sgn v.1, sgn v.2))) with
      | some d => d
      | none => 0
    getNextPosByDir := fun pos dir => (pos.1 + (compassStep dir).1, pos.2 + (compassStep dir).2)
    south := 0 }

/-- A level with a wall on `(6, 6)` and a mace lying on the tile `(5, 5)`. -/
def blockedSouthLevel : GridLevel :=
  { walls := [(6, 6)]
    items := [({ x := 5, y := 5 }, mkItem ItemType.mace ItemEquipType.oneHanded)]
    refusing := [] }

/-- A sword held at the cursor. -/
def heldSword : Item := mkItem ItemType.sword ItemEquipType.oneHanded

/-- The player at `(5, 5)` holding a sword at the cursor, in a given level. -/
def playerAt55 (l : GridLevel) : DropState GridLevel :=
  { level := l, curPos := (5, 5), cursorHeld := heldSword }

/-! ## Resource keys of `Player::updateSprites` -/

/-- The function `toString(PlayerClass)` (lines 23-35); the `return "unknown"`
after the switch is not reached for the three enumerators. -/
def PlayerClass.toString (value : PlayerClass) : String :=
  match value with
  | PlayerClass.warrior => "warrior"
  | PlayerClass.rogue => "rogue"
  | PlayerClass.sorcerer => "sorceror"

/-- The function `getClassCode` (lines 135-148); the lines after the switch are
not reached for the three enumerators. -/
def getClassCode (playerClass : PlayerClass) : Char :=
  match playerClass with
  | PlayerClass.warrior => 'w'
  | PlayerClass.rogue => 'r'
  | PlayerClass.sorcerer => 's'

/-- The armour code of `Player::updateSprites` (lines 154-178) for the item of
the body slot. -/
def armourCode (body : Item) : String :=
  let armour := "l"
  if !body.isEmpty then
    match body.getType with
    | ItemType.heavyArmor => "h"
    | ItemType.mediumArmor => "m"
    | _ => "l"
  else
    armour

/-- The lambda `helper` of `Player::updateSprites` (lines 254-263) with the
last argument of the format fed in by the caller: the format
`plrgfx/%s/%s%s%s/%s%s%s%s.cl2` filled with the class name, the class code, the
armour code and the weapon format, twice the last three, and the suffix. -/
def helper (playerClass : PlayerClass) (armourCode weaponCode : String) (isDie : Bool)
    (suffix : String) : String :=
  let classCode := (getClassCode playerClass).toString
  let weapFormat := if isDie then "n" else weaponCode
  "plrgfx/" ++ playerClass.toString ++ "/" ++ classCode ++ armourCode ++ weapFormat ++ "/"
    ++ classCode ++ armourCode ++ weapFormat ++ suffix ++ ".cl2"

/-- The keys `Player::updateSprites` passes to `loadImage`, one for each
animation state. -/
structure AnimationKeys where
  dead : String
  attack : String
  hit : String
  walk : String
  idle : String
  deriving DecidableEq, Repr

/-- A player with its surroundings: the class and the combat values, the items
of the body, hand and cursor slots, the items of belt and pack, the position,
the combat target (`none` for no target) and the level: `getLevel()` is `none`
for a null pointer and `some t` for a level whose `isTown()` is `t`. -/
structure PlayerState where
  combat : Player
  body : Item
  leftHand : Item
  rightHand : Item
  cursorHeld : Item
  beltAndInventory : List Item
  pos : Pos
  target : Option Nat
  level : Option Bool

/-- The condition `getLevel() && getLevel()->isTown()` of line 271. -/
def inTown (s : PlayerState) : Bool :=
  match s.level with
  | some isTown => isTown
  | none => false

/-- The function `Player::updateSprites`: the five keys passed to `loadImage`,
or `none` when the `release_assert` of line 249 fails. -/
def updateSprites (s : PlayerState) : Option AnimationKeys :=
  let armour := armourCode s.body
  match weaponCode s.leftHand s.rightHand with
  | none => none
  | some weapon =>
    let cls := s.combat.mPlayerClass
    let dead := helper cls armour weapon true "dt"
    let attack := helper cls armour weapon false "at"
    let hit := helper cls armour weapon false "ht"
    if inTown s then
      some { dead := dead, attack := attack, hit := hit,
             walk := helper cls armour weapon false "wl",
             idle := helper cls armour weapon false "st" }
    else
      some { dead := dead, attack := attack, hit := hit,
             walk := helper cls armour weapon false "aw",
             idle := helper cls armour weapon false "as" }

/-- The key of the claim, `plrgfx/T/caW/caWX.cl2`, for the class token `T`, the
class code `c`, the armour code `a`, the weapon token `W` and the suffix `X`. -/
def specKey (T c a W X : String) : String :=
  "plrgfx/" ++ T ++ "/" ++ c ++ a ++ W ++ "/" ++ c ++ a ++ W ++ X ++ ".cl2"

/-- The class token of the specification: the lowercase class name, with
"sorceror" for the sorcerer. -/
def specClassToken : PlayerClass → String
  | PlayerClass.warrior => "warrior"
  | PlayerClass.rogue => "rogue"
  | PlayerClass.sorcerer => "sorceror"

/-- The class code of the specification: "w", "r" or "s". -/
def specClassCode : PlayerClass → String
  | PlayerClass.warrior => "w"
  | PlayerClass.rogue => "r"
  | PlayerClass.sorcerer => "s"

/-- A player state for the scenarios: the given class, items of body and hands
and level, nothing else held, at the origin. -/
def mkState (cls : PlayerClass) (body left right : Item) (level : Option Bool) : PlayerState :=
  { combat := { scenarioWarrior with mPlayerClass := cls }
    body := body, leftHand := left, rightHand := right, cursorHeld := emptyItem
    beltAndInventory := [], pos := (0, 0), target := none, level := level }

/-- The sorcerer of the scenario: both hands empty, no armor, in a town. -/
def townSorcerer : PlayerState :=
  mkState PlayerClass.sorcerer emptyItem emptyItem emptyItem (some true)

/-- The five keys of the town sorcerer. -/
def townSorcererKeys : AnimationKeys :=
  { dead := "plrgfx/sorceror/sln/slndt.cl2", attack := "plrgfx/sorceror/sln/slnat.cl2",
    hit := "plrgfx/sorceror/sln/slnht.cl2", walk := "plrgfx/sorceror/sln/slnwl.cl2",
    idle := "plrgfx/sorceror/sln/slnst.cl2" }

/-- A rogue with a bow in the left hand, in a level that is not a town. -/
def fieldRogue : PlayerState :=
  mkState PlayerClass.rogue emptyItem (mkItem ItemType.bow ItemEquipType.twoHanded) emptyItem
    (some false)

/-- The same rogue elsewhere, without a level, with other stats, a sword at the
cursor, gold in the pack and a combat target. -/
def otherFieldRogue : PlayerState :=
  { combat := { plainRogue with mDexterity := 77, characterLevel := 30 }
    body := emptyItem
    leftHand := mkItem ItemType.bow ItemEquipType.twoHanded
    rightHand := emptyItem
    cursorHeld := heldSword
    beltAndInventory := [mkItem ItemType.gold (ItemEquipType.other 0)]
    pos := (12, 40)
    target := some 3
    level := none }

/-! ## Critical hits -/

/-- The scenario warrior as a rogue: the same stats, the class apart. -/
def scenarioRogue : Player := { scenarioWarrior with mPlayerClass := PlayerClass.rogue }

/-! ## Persistence (`Player::save` and the loading constructor) -/

/-- Modelled from the spec: the saver and the loader (`FASaveGame::GameSaver`,
`GameLoader`) are not in the source. The persistence stream is the ordered
sequence of what was given to the saver: the start and the end of a named
category, and primitive values, of type `int32_t` or of another type. -/
inductive SaveEntry
  | startCategory (name : String)
  | endCategory (name : String)
  | int32 (value : Int)
  | other (kind : String) (value : Int)
  deriving DecidableEq, Repr

/-- Modelled from the spec: the entry is a primitive value, not the start or
the end of a category. -/
def SaveEntry.isValue : SaveEntry → Bool
  | SaveEntry.startCategory _ => false
  | SaveEntry.endCategory _ => false
  | _ => true

/-- Modelled from the spec: what a loader reads from a saved stream: its
primitive values in order; the categories are named scopes around the fields
and not fields themselves. -/
def payload (stream : List SaveEntry) : List SaveEntry :=
  stream.filter SaveEntry.isValue

/-- Modelled from the spec: the call `loader.load<int32_t>()`: the next value
of the stream, which has to be an `int32_t`, and the stream after it. -/
def loadInt32 : List SaveEntry → Option (Int × List SaveEntry)
  | SaveEntry.int32 value :: rest => some (value, rest)
  | _ => none

/-- Modelled from the spec: `Serial::ScopedCategorySaver`, a named
save-category scope: the category is started where the object is constructed
and ended where its scope ends, after the writes `body` made in between. -/
def scopedCategorySaver (name : String) (saver : List SaveEntry)
    (body : List SaveEntry → List SaveEntry) : List SaveEntry :=
  body (saver ++ [SaveEntry.startCategory name]) ++ [SaveEntry.endCategory name]

/-- Modelled from the spec: the serialization code outside `player.cpp` that
`Player::save` and the loading constructor call, for a base actor `A` and a
stats block `St`: `Actor::save`, the loading constructor of `Actor`,
`PlayerStats::save`, the loading constructor of `PlayerStats`, and the value
`static_cast<int32_t>` gives to a `PlayerClass`; the enumerators have distinct
values (they are the case labels of one `switch`). -/
structure SaveParts (A St : Type) where
  actorSave : A → List SaveEntry
  actorLoad : List SaveEntry → Option (A × List SaveEntry)
  statsSave : St → List SaveEntry
  statsLoad : List SaveEntry → Option (St × List SaveEntry)
  classValue : PlayerClass → Int
  classValue_injective : Function.Injective classValue

/-- The persisted part of a player: the base actor, the class and the stats
block. -/
structure SavedPlayer (A St : Type) where
  actor : A
  mPlayerClass : PlayerClass
  mPlayerStats : St

/-- The player a loading constructor leaves; the class is `none` when the
loaded `int32_t` is the value of none of the three enumerators. -/
structure LoadedPlayer (A St : Type) where
  actor : A
  mPlayerClass : Option PlayerClass
  mPlayerStats : St

/-- The cast `static_cast<PlayerClass>` of a loaded `int32_t`. -/
def castPlayerClass {A St : Type} (P : SaveParts A St) (value : Int) : Option PlayerClass :=
  if value = P.classValue PlayerClass.warrior then some PlayerClass.warrior
  else if value = P.classValue PlayerClass.rogue then some PlayerClass.rogue
  else if value = P.classValue PlayerClass.sorcerer then some PlayerClass.sorcerer
  else none

/-- The function `Player::save` (lines 109-116): the stream of the saver after
the call. -/
def savePlayer {A St : Type} (P : SaveParts A St) (pl : SavedPlayer A St)
    (saver : List SaveEntry) : List SaveEntry :=
  scopedCategorySaver "Player" saver (fun saver =>
    let saver := saver ++ P.actorSave pl.actor
    let saver := saver ++ [SaveEntry.int32 (P.classValue pl.mPlayerClass)]
    saver ++ P.statsSave pl.mPlayerStats)

/-- The loading constructor of `Player` (lines 102-107): the base `Actor` is
loaded first, then the class, then the stats block; the result is the player
and the rest of the stream, or `none` when a load fails. -/
def loadPlayer {A St : Type} (P : SaveParts A St) (loader : List SaveEntry) :
    Option (LoadedPlayer A St × List SaveEntry) :=
  match P.actorLoad loader with
  | none => none
  | some (actor, loader) =>
    match loadInt32 loader with
    | none => none
    | some (value, loader) =>
      match P.statsLoad loader with
      | none => none
      | some (stats, loader) =>
        some ({ actor := actor, mPlayerClass := castPlayerClass P value, mPlayerStats := stats },
          loader)

/-- The save stream in the words of the specification: the category "Player"
around exactly two writes, the class as an `int32_t` and the stats block. -/
def specSave {A St : Type} (P : SaveParts A St) (pl : SavedPlayer A St)
    (saver : List SaveEntry) : List SaveEntry :=
  saver ++ [SaveEntry.startCategory "Player"]
    ++ [SaveEntry.int32 (P.classValue pl.mPlayerClass)]
    ++ P.statsSave pl.mPlayerStats
    ++ [SaveEntry.endCategory "Player"]

/-- The value of a class for the scenarios: 0, 1, 2 in the order warrior,
rogue, sorcerer. -/
def demoClassValue : PlayerClass → Int
  | PlayerClass.warrior => 0
  | PlayerClass.rogue => 1
  | PlayerClass.sorcerer => 2

/-- The load of two consecutive `int32_t` values. -/
def loadTwoInt32 (loader : List SaveEntry) : Option ((Int × Int) × List SaveEntry) :=
  match loadInt32 loader with
  | none => none
  | some (a, loader) =>
    match loadInt32 loader with
    | none => none
    | some (b, loader) => some ((a, b), loader)

/-- Serialization parts for the scenarios: an actor is one `int32_t` written in
a category "Actor", a stats block two `int32_t` values. -/
def demoParts : SaveParts Int (Int × Int) :=
  { actorSave := fun a =>
      [SaveEntry.startCategory "Actor", SaveEntry.int32 a, SaveEntry.endCategory "Actor"]
    actorLoad := loadInt32
    statsSave := fun st => [SaveEntry.int32 st.1, SaveEntry.int32 st.2]
    statsLoad := loadTwoInt32
    classValue := demoClassValue
    classValue_injective := by
      intro a b h
      cases a <;> cases b <;> first | rfl | exact absurd h (by decide) }

/-- A sorcerer for the scenarios: actor 7, stats block `(25, 40)`. -/
def demoPlayer : SavedPlayer Int (Int × Int) :=
  { actor := 7, mPlayerClass := PlayerClass.sorcerer, mPlayerStats := (25, 40) }

end FAWorld

namespace FAWorld

/-! ## Lemmas on machine integers -/

theorem wrap32_of_inInt32 {x : Int} (h : inInt32 x) : wrap32 x = x := by
  unfold inInt32 at h
  unfold wrap32
  omega

/-- The truncating division by a non-negative divisor in terms of the floor
division: the quotient of the absolute value, with the sign of the dividend. -/
theorem tdiv_eq_ite (a b : Int) (hb : 0 ≤ b) :
    a.tdiv b = if 0 ≤ a then a / b else -((-a) / b) := by
  split_ifs with h
  · exact Int.tdiv_eq_ediv h hb
  · have h1 : a.tdiv b = -((-a).tdiv b) := by rw [Int.neg_tdiv, Int.neg_neg]
    rw [h1, Int.tdiv_eq_ediv (by omega) hb]

theorem inInt32_tdiv_two {x : Int} (h : inInt32 x) : inInt32 (x.tdiv 2) := by
  unfold inInt32 at *
  rw [tdiv_eq_ite x 2 (by decide)]
  split_ifs <;> omega

theorem inInt32_tdiv_hundred {x : Int} (h : inInt32 x) : inInt32 (x.tdiv 100) := by
  unfold inInt32 at *
  rw [tdiv_eq_ite x 100 (by decide)]
  split_ifs <;> omega

theorem clamp_eq_max_min (v : Int) : clamp v 5 95 = max 5 (min 95 v) := by
  unfold clamp
  split_ifs <;> omega

/-! ## Combat resolver: hit chance -/

theorem toHitRaw_of_noOverflow (p : Player) (armor : Int) (h : checkHitNoOverflow p armor) :
    toHitRaw p armor = p.mDexterity.tdiv 2 + p.armorPenetration - armor + p.characterLevel + 50
      + (if p.mPlayerClass = PlayerClass.warrior then 20 else 0) := by
  obtain ⟨h0, h1, h2, h3, h4, h5⟩ := h
  have hd : div32 p.mDexterity 2 = p.mDexterity.tdiv 2 :=
    wrap32_of_inInt32 (inInt32_tdiv_two h0)
  unfold toHitRaw
  simp only [hd]
  simp only [add32, sub32, wrap32_of_inInt32 h1, wrap32_of_inInt32 h2, wrap32_of_inInt32 h3,
    wrap32_of_inInt32 h4]
  split_ifs with hw
  · simp only [hw, if_true] at h5
    exact wrap32_of_inInt32 h5
  · simp

/-- C1: when no 32-bit operation of `Player::checkHit` overflows, the attack
hits exactly when the roll is below the sum `dexterity / 2 + armorPenetration -
targetArmor + characterLevel + 50 (+ 20 for a warrior)` clamped to `[5, 95]`,
for every roll (in particular every roll in `[0, 99]`). -/
theorem checkHit_iff_roll_lt_specThreshold (p : Player) (armor roll : Int)
    (h : checkHitNoOverflow p armor) :
    checkHit p armor roll = true ↔ roll < specThreshold p armor := by
  unfold checkHit hitThreshold specThreshold
  rw [toHitRaw_of_noOverflow p armor h, clamp_eq_max_min]
  simp

/-- The scenario of C1: a warrior of level 10 with dexterity 40 and armor
penetration 5 against armor 20 has threshold 85 and hits iff the roll is below
85. -/
theorem checkHit_iff_roll_lt_specThreshold_witness :
    checkHitNoOverflow scenarioWarrior 20 ∧ specThreshold scenarioWarrior 20 = 85 ∧
      (checkHit scenarioWarrior 20 84 = true ↔ 84 < specThreshold scenarioWarrior 20) ∧
      (checkHit scenarioWarrior 20 85 = true ↔ 85 < specThreshold scenarioWarrior 20) :=
  ⟨by decide, by decide,
    checkHit_iff_roll_lt_specThreshold scenarioWarrior 20 84 (by decide),
    checkHit_iff_roll_lt_specThreshold scenarioWarrior 20 85 (by decide)⟩

/-- C2: whatever the stats, the class and the target armor, overflowing
operations being taken modulo `2^32`, the threshold `Player::checkHit` compares
the roll against lies in `[5, 95]`. -/
theorem hitThreshold_mem_five_ninetyFive (p : Player) (armor : Int) :
    (5 ≤ hitThreshold p armor ∧ hitThreshold p armor ≤ 95) ∧
      ∀ roll : Int, checkHit p armor roll = decide (roll < hitThreshold p armor) := by
  refine ⟨?_, fun _ => rfl⟩
  unfold hitThreshold clamp
  split_ifs <;> omega

/-! ## Combat resolver: damage -/

theorem meleeDamageVs_of_noOverflow (p : Player) (draw critRoll : Int)
    (h : meleeNoOverflow p draw critRoll) :
    meleeDamageVs p draw critRoll = specDamage p draw critRoll := by
  obtain ⟨_, h1, h2, h3, h4, h5⟩ := h
  have hm : mul32 draw p.percentDamageBonus = draw * p.percentDamageBonus :=
    wrap32_of_inInt32 h1
  have hd : div32 (draw * p.percentDamageBonus) 100 = (draw * p.percentDamageBonus).tdiv 100 :=
    wrap32_of_inInt32 (inInt32_tdiv_hundred h1)
  unfold meleeDamageVs
  simp only [hm, hd]
  simp only [add32, wrap32_of_inInt32 h2, wrap32_of_inInt32 h3, wrap32_of_inInt32 h4]
  unfold specDamage at h5 ⊢
  split_ifs with hw
  · simp only [hw, if_true] at h5
    simp only [mul32]
    rw [Int.mul_comm, wrap32_of_inInt32]
    simpa using h5
  · rfl

/-- C3 (as stated, refuted): for the rogue whose damage range is exactly
100000 with a percent damage bonus of 30000, the only possible draw 100000 and
the critical roll 0, `Player::meleeDamageVs` does not return the sum of the
claim: the product `draw * percentDamageBonus` leaves the 32-bit range. -/
theorem meleeDamageVs_ne_specDamage_at_overflow :
    overflowRogue.minAttackDamage ≤ overflowRogue.maxAttackDamage ∧
      overflowRogue.minAttackDamage ≤ 100000 ∧ 100000 ≤ overflowRogue.maxAttackDamage ∧
      (0 : Int) ≤ 0 ∧ (0 : Int) ≤ 99 ∧
      meleeDamageVs overflowRogue 100000 0 = -12849672 ∧
      specDamage overflowRogue 100000 0 = 30100000 := by
  decide

/-- C3 (amended): when no 32-bit operation of `Player::meleeDamageVs`
overflows, the result for the draw `d` and the critical roll `r` is
`base = d + (d * percentDamageBonus / 100, truncated) + characterBaseDamage +
flatDamageBonus` when the class is not warrior or `r >= characterLevel`, and
`2 * base` when the class is warrior and `r < characterLevel`; the target is not
an input; a draw from a range with `minAttackDamage = maxAttackDamage` is that
single value; and there is no clamp: every 32-bit value is the damage of some
player. -/
theorem meleeDamageVs_eq_specDamage (p : Player) (d r : Int)
    (h : meleeNoOverflow p d r) :
    meleeDamageVs p d r = specDamage p d r ∧
      (¬ (p.mPlayerClass = PlayerClass.warrior ∧ r < p.characterLevel) →
        meleeDamageVs p d r
          = d + (d * p.percentDamageBonus).tdiv 100 + p.characterBaseDamage + p.damageBonus) ∧
      (p.mPlayerClass = PlayerClass.warrior ∧ r < p.characterLevel →
        meleeDamageVs p d r
          = 2 * (d + (d * p.percentDamageBonus).tdiv 100 + p.characterBaseDamage
              + p.damageBonus)) ∧
      (p.minAttackDamage = p.maxAttackDamage → p.minAttackDamage ≤ d →
        d ≤ p.maxAttackDamage → d = p.minAttackDamage) ∧
      (∀ v : Int, inInt32 v → meleeDamageVs (bareRogue v) v 0 = v) := by
  have h0 := meleeDamageVs_of_noOverflow p d r h
  refine ⟨h0, ?_, ?_, fun he h1 h2 => by omega, ?_⟩
  · intro hc
    rw [h0]; unfold specDamage; simp only [if_neg hc]
  · intro hc
    rw [h0]; unfold specDamage; simp only [if_pos hc]
  · intro v hv
    have hz : div32 (wrap32 0) 100 = 0 := by decide
    simp only [meleeDamageVs, bareRogue, mul32, add32, Int.mul_zero, hz, Int.add_zero,
      wrap32_of_inInt32 hv]
    simp

/-- The degenerate range of C3: with `minAttackDamage = maxAttackDamage = 5`
the draw is 5, and the rogue with percent bonus 50, base damage 4 and flat
bonus 1 deals `5 + 2 + 4 + 1 = 12`. -/
theorem meleeDamageVs_eq_specDamage_witness :
    meleeNoOverflow plainRogue 5 0 ∧ meleeDamageVs plainRogue 5 0 = 12 :=
  ⟨by decide, by
    have h := (meleeDamageVs_eq_specDamage plainRogue 5 0 (by decide)).1
    rw [h]; decide⟩

/-! ## Weapon classification -/

theorem weaponCode_two_hands_eq (l r : Item) (hl : l.isEmpty = false)
    (hr : r.isEmpty = false) :
    weaponCode l r
      = if (twoHandCode l r "").isEmpty then none else some (twoHandCode l r "") := by
  unfold weaponCode
  simp only [hl, hr]
  by_cases h : (twoHandCode l r "").isEmpty = true <;> simp [h]

/-- C8: for two occupied hands the weapon code is decided in this priority
order: a sword in one hand and a shield in the other give "d"; otherwise two
bows give "b"; otherwise two staffs give "t"; otherwise a mace in either hand
gives "h". The rules exclude one another, so a mace in either hand gives "h"
whatever the other item is (a mace included). -/
theorem weaponCode_two_hands_priority (l r : Item) (hl : l.isEmpty = false)
    (hr : r.isEmpty = false) :
    ((l.getType = ItemType.sword ∧ r.getType = ItemType.shield) ∨
        (l.getType = ItemType.shield ∧ r.getType = ItemType.sword) →
      weaponCode l r = some "d") ∧
    (¬ ((l.getType = ItemType.sword ∧ r.getType = ItemType.shield) ∨
        (l.getType = ItemType.shield ∧ r.getType = ItemType.sword)) →
      (l.getType = ItemType.bow ∧ r.getType = ItemType.bow) →
      weaponCode l r = some "b") ∧
    (¬ ((l.getType = ItemType.sword ∧ r.getType = ItemType.shield) ∨
        (l.getType = ItemType.shield ∧ r.getType = ItemType.sword)) →
      ¬ (l.getType = ItemType.bow ∧ r.getType = ItemType.bow) →
      (l.getType = ItemType.staff ∧ r.getType = ItemType.staff) →
      weaponCode l r = some "t") ∧
    (¬ ((l.getType = ItemType.sword ∧ r.getType = ItemType.shield) ∨
        (l.getType = ItemType.shield ∧ r.getType = ItemType.sword)) →
      ¬ (l.getType = ItemType.bow ∧ r.getType = ItemType.bow) →
      ¬ (l.getType = ItemType.staff ∧ r.getType = ItemType.staff) →
      (l.getType = ItemType.mace ∨ r.getType = ItemType.mace) →
      weaponCode l r = some "h") ∧
    (l.getType = ItemType.mace ∨ r.getType = ItemType.mace → weaponCode l r = some "h") := by
  rw [weaponCode_two_hands_eq l r hl hr]
  unfold twoHandCode
  refine ⟨?_, ?_, ?_, ?_, ?_⟩
  · intro h1
    rw [if_pos h1]; decide
  · intro h1 h2
    rw [if_neg h1, if_pos h2]; decide
  · intro h1 h2 h3
    rw [if_neg h1, if_neg h2, if_pos h3]; decide
  · intro h1 h2 h3 h4
    rw [if_neg h1, if_neg h2, if_neg h3, if_pos h4]; decide
  · intro h4
    have h1 : ¬ ((l.getType = ItemType.sword ∧ r.getType = ItemType.shield) ∨
        (l.getType = ItemType.shield ∧ r.getType = ItemType.sword)) := by
      rcases h4 with h | h <;> simp [h]
    have h2 : ¬ (l.getType = ItemType.bow ∧ r.getType = ItemType.bow) := by
      rcases h4 with h | h <;> simp [h]
    have h3 : ¬ (l.getType = ItemType.staff ∧ r.getType = ItemType.staff) := by
      rcases h4 with h | h <;> simp [h]
    rw [if_neg h1, if_neg h2, if_neg h3, if_pos h4]; decide

/-- A shield in the left hand and a sword in the right give "d"; a mace with a
mace gives "h". -/
theorem weaponCode_two_hands_priority_witness :
    weaponCode (mkItem ItemType.shield ItemEquipType.oneHanded)
        (mkItem ItemType.sword ItemEquipType.oneHanded) = some "d" ∧
      weaponCode (mkItem ItemType.mace ItemEquipType.oneHanded)
        (mkItem ItemType.mace ItemEquipType.oneHanded) = some "h" :=
  ⟨(weaponCode_two_hands_priority (mkItem ItemType.shield ItemEquipType.oneHanded)
      (mkItem ItemType.sword ItemEquipType.oneHanded) rfl rfl).1 (by decide),
    (weaponCode_two_hands_priority (mkItem ItemType.mace ItemEquipType.oneHanded)
      (mkItem ItemType.mace ItemEquipType.oneHanded) rfl rfl).2.2.2.2 (by decide)⟩

theorem twoHandCode_isEmpty_iff (l r : Item) :
    (twoHandCode l r "").isEmpty = true ↔ ¬ pairRuleMatches l r := by
  unfold twoHandCode pairRuleMatches
  split_ifs with h1 h2 h3 h4
  · simp only [h1, true_or, not_true_eq_false, iff_false]; decide
  · simp only [h2, true_or, or_true, not_true_eq_false, iff_false]; decide
  · simp only [h3, true_or, or_true, not_true_eq_false, iff_false]; decide
  · simp only [h4, or_true, not_true_eq_false, iff_false]; decide
  · simp only [h1, h2, h3, h4, or_self, not_false_eq_true, iff_true]; decide

theorem twoHandCode_mem (l r : Item) :
    twoHandCode l r "" ∈ ["", "d", "b", "t", "h"] := by
  unfold twoHandCode
  split_ifs <;> simp

theorem oneHandCode_mem (hand : Item) :
    oneHandCode hand ∈ ["n", "s", "a", "m", "b", "u"] := by
  unfold oneHandCode
  split
  · split_ifs <;> simp
  all_goals simp

theorem weaponCode_both_empty (l r : Item) (hl : l.isEmpty = true) (hr : r.isEmpty = true) :
    weaponCode l r = some "n" := by
  unfold weaponCode
  simp [hl, hr]

theorem weaponCode_left_only (l r : Item) (hl : l.isEmpty = false) (hr : r.isEmpty = true) :
    weaponCode l r = some (oneHandCode l) := by
  unfold weaponCode
  simp [hl, hr]

theorem weaponCode_right_only (l r : Item) (hl : l.isEmpty = true) (hr : r.isEmpty = false) :
    weaponCode l r = some (oneHandCode r) := by
  unfold weaponCode
  simp [hl, hr]

/-- C9: the weapon classification fails its `release_assert` exactly when both
hands are occupied and none of the four pairwise rules matches, as for a sword
with a sword or a sword with an axe; it never fails with at most one hand
occupied; and when it does not fail the weapon code is non-empty and one of
"n", "s", "a", "m", "b", "u", "d", "t", "h". -/
theorem weaponCode_eq_none_iff (l r : Item) :
    (weaponCode l r = none ↔
      (l.isEmpty = false ∧ r.isEmpty = false ∧ ¬ pairRuleMatches l r)) ∧
    (l.isEmpty = true ∨ r.isEmpty = true → weaponCode l r ≠ none) ∧
    (∀ w : String, weaponCode l r = some w →
      w ≠ "" ∧ w ∈ ["n", "s", "a", "m", "b", "u", "d", "t", "h"]) ∧
    weaponCode (mkItem ItemType.sword ItemEquipType.oneHanded)
      (mkItem ItemType.sword ItemEquipType.oneHanded) = none ∧
    weaponCode (mkItem ItemType.sword ItemEquipType.oneHanded)
      (mkItem ItemType.axe ItemEquipType.twoHanded) = none := by
  refine ⟨?_, ?_, ?_, by decide, by decide⟩
  · cases hl : l.isEmpty <;> cases hr : r.isEmpty
    · rw [weaponCode_two_hands_eq l r hl hr]
      have h := twoHandCode_isEmpty_iff l r
      by_cases he : (twoHandCode l r "").isEmpty = true
      · simp [he, h.mp he]
      · have hp : pairRuleMatches l r := by
          by_contra hp
          exact he (h.mpr hp)
        simp [he, hp]
    · rw [weaponCode_left_only l r hl hr]; simp
    · rw [weaponCode_right_only l r hl hr]; simp
    · rw [weaponCode_both_empty l r hl hr]; simp
  · intro h
    cases hl : l.isEmpty <;> cases hr : r.isEmpty
    · rw [hl, hr] at h; simp at h
    · rw [weaponCode_left_only l r hl hr]; simp
    · rw [weaponCode_right_only l r hl hr]; simp
    · rw [weaponCode_both_empty l r hl hr]; simp
  · intro w hw
    have hone : ∀ hand : Item, some (oneHandCode hand) = some w →
        w ≠ "" ∧ w ∈ ["n", "s", "a", "m", "b", "u", "d", "t", "h"] := by
      intro hand hc
      have hm := oneHandCode_mem hand
      rw [Option.some.inj hc] at hm
      simp only [List.mem_cons, List.mem_singleton, List.not_mem_nil, or_false] at hm ⊢
      rcases hm with h | h | h | h | h | h <;> subst h <;> decide
    cases hl : l.isEmpty <;> cases hr : r.isEmpty
    · rw [weaponCode_two_hands_eq l r hl hr] at hw
      have hm := twoHandCode_mem l r
      by_cases he : (twoHandCode l r "").isEmpty = true
      · simp [he] at hw
      · simp only [he] at hw
        have hw2 : twoHandCode l r "" = w := by simpa using hw
        rw [hw2] at hm he
        simp only [List.mem_cons, List.mem_singleton, List.not_mem_nil, or_false] at hm ⊢
        rcases hm with h | h | h | h | h <;> subst h
        · exact absurd (by decide) he
        all_goals decide
    · rw [weaponCode_left_only l r hl hr] at hw; exact hone l hw
    · rw [weaponCode_right_only l r hl hr] at hw; exact hone r hw
    · rw [weaponCode_both_empty l r hl hr] at hw
      have h : "n" = w := by simpa using hw
      subst h; decide

/-- C10: with both hands empty the weapon code is "n"; with exactly one hand
occupied, whichever it is, the code is "s" for an axe whose equip location is
one-handed, "a" for any other axe, "m" for a mace, "b" for a bow, "u" for a
shield, "s" for a sword and "n" for every other type, a staff included. -/
theorem weaponCode_at_most_one_hand (hand e e2 : Item) (hh : hand.isEmpty = false)
    (he : e.isEmpty = true) (he2 : e2.isEmpty = true) :
    weaponCode e e2 = some "n" ∧
    weaponCode e hand = weaponCode hand e ∧
    (hand.getType = ItemType.axe → hand.getEquipLoc = ItemEquipType.oneHanded →
      weaponCode hand e = some "s") ∧
    (hand.getType = ItemType.axe → hand.getEquipLoc ≠ ItemEquipType.oneHanded →
      weaponCode hand e = some "a") ∧
    (hand.getType = ItemType.mace → weaponCode hand e = some "m") ∧
    (hand.getType = ItemType.bow → weaponCode hand e = some "b") ∧
    (hand.getType = ItemType.shield → weaponCode hand e = some "u") ∧
    (hand.getType = ItemType.sword → weaponCode hand e = some "s") ∧
    (hand.getType ≠ ItemType.axe → hand.getType ≠ ItemType.mace →
      hand.getType ≠ ItemType.bow → hand.getType ≠ ItemType.shield →
      hand.getType ≠ ItemType.sword → weaponCode hand e = some "n") ∧
    (hand.getType = ItemType.staff → weaponCode hand e = some "n") := by
  rw [weaponCode_both_empty e e2 he he2, weaponCode_right_only e hand he hh,
    weaponCode_left_only hand e hh he]
  unfold oneHandCode
  refine ⟨rfl, rfl, ?_, ?_, ?_, ?_, ?_, ?_, ?_, ?_⟩
  · intro ht hloc; simp [ht, hloc]
  · intro ht hloc; simp [ht, hloc]
  · intro ht; simp [ht]
  · intro ht; simp [ht]
  · intro ht; simp [ht]
  · intro ht; simp [ht]
  · intro h1 h2 h3 h4 h5
    split <;> first | rfl | contradiction
  · intro ht; simp [ht]

/-- A one-handed axe alone in the left hand gives "s", a two-handed axe "a",
a staff alone "n". -/
theorem weaponCode_at_most_one_hand_witness :
    weaponCode (mkItem ItemType.axe ItemEquipType.oneHanded) emptyItem = some "s" ∧
      weaponCode (mkItem ItemType.axe ItemEquipType.twoHanded) emptyItem = some "a" ∧
      weaponCode (mkItem ItemType.staff ItemEquipType.twoHanded) emptyItem = some "n" :=
  ⟨(weaponCode_at_most_one_hand (mkItem ItemType.axe ItemEquipType.oneHanded) emptyItem
      emptyItem rfl rfl rfl).2.2.1 rfl rfl,
    (weaponCode_at_most_one_hand (mkItem ItemType.axe ItemEquipType.twoHanded) emptyItem
      emptyItem rfl rfl rfl).2.2.2.1 rfl (by decide),
    (weaponCode_at_most_one_hand (mkItem ItemType.staff ItemEquipType.twoHanded) emptyItem
      emptyItem rfl rfl rfl).2.2.2.2.2.2.2.2.2 rfl⟩

/-! ## Drop placement search -/

theorem rotateDir_zero {d : Int} (h0 : 0 ≤ d) (h8 : d < 8) : rotateDir d 0 = d := by
  interval_cases d <;> decide

theorem rotateDir_neg_one {d : Int} (h0 : 0 ≤ d) (h8 : d < 8) :
    rotateDir d (-1) = (d - 1) % 8 := by
  interval_cases d <;> decide

theorem rotateDir_one {d : Int} (h0 : 0 ≤ d) (h8 : d < 8) : rotateDir d 1 = (d + 1) % 8 := by
  interval_cases d <;> decide

theorem checkedPositions_checkCalls (l : List (Pos × Bool)) (r : List Call) :
    checkedPositions (checkCalls l ++ r) = l.map Prod.fst ++ checkedPositions r := by
  induction l with
  | nil => rfl
  | cons e l ih =>
    simp only [checkCalls, List.map_cons, List.cons_append, checkedPositions] at ih ⊢
    exact congrArg (List.cons e.1) ih

theorem levelDropTiles_checkCalls (l : List (Pos × Bool)) (r : List Call) :
    levelDropTiles (checkCalls l ++ r) = levelDropTiles r := by
  induction l with
  | nil => rfl
  | cons e l ih =>
    simp only [checkCalls, List.map_cons, List.cons_append, levelDropTiles] at ih ⊢
    exact ih

theorem setCursorHeld_mem_checkCalls (l : List (Pos × Bool)) (r : List Call) (item : Item) :
    Call.setCursorHeld item ∈ checkCalls l ++ r ↔ Call.setCursorHeld item ∈ r := by
  induction l with
  | nil => rfl
  | cons e l ih =>
    simp only [checkCalls, List.map_cons, List.cons_append, List.mem_cons] at ih ⊢
    rw [ih]
    simp

theorem checkCalls_append (a b : List (Pos × Bool)) :
    checkCalls a ++ checkCalls b = checkCalls (a ++ b) := by
  simp [checkCalls]

theorem after_after {L : Type} (a b : List Call) (o : DropOutcome L) :
    (o.after a).after b = o.after (b ++ a) := by
  simp [DropOutcome.after]

theorem tryDrop_result {L : Type} (ops : LevelOps L) (s : DropState L) (pos : Pos) :
    (tryDrop ops s pos).result = (ops.dropItem s.level s.cursorHeld (Tile.ofPos pos)).1 := by
  unfold tryDrop
  cases h : (ops.dropItem s.level s.cursorHeld (Tile.ofPos pos)).1 <;> simp [h]

theorem tryDrop_level {L : Type} (ops : LevelOps L) (s : DropState L) (pos : Pos) :
    (tryDrop ops s pos).state.level = (ops.dropItem s.level s.cursorHeld (Tile.ofPos pos)).2 := by
  unfold tryDrop
  cases h : (ops.dropItem s.level s.cursorHeld (Tile.ofPos pos)).1 <;> simp [h]

theorem tryDrop_cursorHeld {L : Type} (ops : LevelOps L) (s : DropState L) (pos : Pos) :
    (tryDrop ops s pos).state.cursorHeld
      = if (tryDrop ops s pos).result then emptyItem else s.cursorHeld := by
  unfold tryDrop
  cases h : (ops.dropItem s.level s.cursorHeld (Tile.ofPos pos)).1 <;> simp [h]

theorem tryDrop_checkedPositions {L : Type} (ops : LevelOps L) (s : DropState L) (pos : Pos) :
    checkedPositions (tryDrop ops s pos).calls = [] := by
  unfold tryDrop
  cases h : (ops.dropItem s.level s.cursorHeld (Tile.ofPos pos)).1 <;>
    simp [h, checkedPositions]

theorem tryDrop_levelDropTiles {L : Type} (ops : LevelOps L) (s : DropState L) (pos : Pos) :
    levelDropTiles (tryDrop ops s pos).calls = [Tile.ofPos pos] := by
  unfold tryDrop
  cases h : (ops.dropItem s.level s.cursorHeld (Tile.ofPos pos)).1 <;>
    simp [h, levelDropTiles]

theorem tryDrop_setCursorHeld_mem {L : Type} (ops : LevelOps L) (s : DropState L) (pos : Pos) :
    Call.setCursorHeld emptyItem ∈ (tryDrop ops s pos).calls ↔
      (tryDrop ops s pos).result = true := by
  unfold tryDrop
  cases h : (ops.dropItem s.level s.cursorHeld (Tile.ofPos pos)).1 <;> simp [h]

/-- The clicked tile is the player's own and is a valid drop site: the drop is
tried there at once. -/
theorem dropItem_own_valid {L : Type} (ops : LevelOps L) (M : MiscOps) (s : DropState L)
    (clicked : Tile) (hc : clicked = Tile.ofPos s.curPos)
    (hok : isPosOk ops s.level s.curPos = true) :
    dropItem ops M s clicked = (tryDrop ops s s.curPos).after (checkCalls [(s.curPos, true)]) := by
  unfold dropItem
  simp only [hc, hok, if_true]
  rfl

/-- In the other cases the directional search runs, from the direction
`searchDir`, after the failed check of the own tile if there was one. -/
theorem dropItem_search {L : Type} (ops : LevelOps L) (M : MiscOps) (s : DropState L)
    (clicked : Tile)
    (hreach : clicked ≠ Tile.ofPos s.curPos ∨ isPosOk ops s.level s.curPos = false) :
    dropItem ops M s clicked
      = (dropLoop ops M s (searchDir M s.curPos clicked) [0, -1, 1]).after
          (checkCalls ((ownTileCheck s.curPos clicked).map (fun p => (p, false)))) := by
  unfold dropItem searchDir ownTileCheck
  by_cases hc : clicked = Tile.ofPos s.curPos
  · have hok : isPosOk ops s.level s.curPos = false := by
      rcases hreach with h | h
      · exact absurd hc h
      · exact h
    simp only [hc, hok, if_true]
    rfl
  · simp only [hc, if_false]
    simp [DropOutcome.after, checkCalls]

theorem dropLoop_first {L : Type} (ops : LevelOps L) (M : MiscOps) (s : DropState L) (d0 : Int)
    (h0 : isPosOk ops s.level (loopCandidate M s.curPos d0 0) = true) :
    dropLoop ops M s d0 [0, -1, 1]
      = (tryDrop ops s (loopCandidate M s.curPos d0 0)).after
          (checkCalls [(loopCandidate M s.curPos d0 0, true)]) := by
  unfold loopCandidate at h0
  simp only [dropLoop, h0, if_true]
  rfl

theorem dropLoop_second {L : Type} (ops : LevelOps L) (M : MiscOps) (s : DropState L) (d0 : Int)
    (h0 : isPosOk ops s.level (loopCandidate M s.curPos d0 0) = false)
    (h1 : isPosOk ops s.level (loopCandidate M s.curPos d0 (-1)) = true) :
    dropLoop ops M s d0 [0, -1, 1]
      = (tryDrop ops s (loopCandidate M s.curPos d0 (-1))).after
          (checkCalls [(loopCandidate M s.curPos d0 0, false),
            (loopCandidate M s.curPos d0 (-1), true)]) := by
  unfold loopCandidate at h0 h1
  simp only [dropLoop, h0, h1, if_true]
  rfl

theorem dropLoop_third {L : Type} (ops : LevelOps L) (M : MiscOps) (s : DropState L) (d0 : Int)
    (h0 : isPosOk ops s.level (loopCandidate M s.curPos d0 0) = false)
    (h1 : isPosOk ops s.level (loopCandidate M s.curPos d0 (-1)) = false)
    (h2 : isPosOk ops s.level (loopCandidate M s.curPos d0 1) = true) :
    dropLoop ops M s d0 [0, -1, 1]
      = (tryDrop ops s (loopCandidate M s.curPos d0 1)).after
          (checkCalls [(loopCandidate M s.curPos d0 0, false),
            (loopCandidate M s.curPos d0 (-1), false), (loopCandidate M s.curPos d0 1, true)]) := by
  unfold loopCandidate at h0 h1 h2
  simp only [dropLoop, h0, h1, h2, if_true]
  rfl

theorem dropLoop_none {L : Type} (ops : LevelOps L) (M : MiscOps) (s : DropState L) (d0 : Int)
    (h0 : isPosOk ops s.level (loopCandidate M s.curPos d0 0) = false)
    (h1 : isPosOk ops s.level (loopCandidate M s.curPos d0 (-1)) = false)
    (h2 : isPosOk ops s.level (loopCandidate M s.curPos d0 1) = false) :
    dropLoop ops M s d0 [0, -1, 1]
      = (dropFallback ops s).after
          (checkCalls [(loopCandidate M s.curPos d0 0, false),
            (loopCandidate M s.curPos d0 (-1), false),
            (loopCandidate M s.curPos d0 1, false)]) := by
  unfold loopCandidate at h0 h1 h2
  simp only [dropLoop, h0, h1, h2]
  rfl

/-- The shape of every run of `Player::dropItem`: some validity checks, then
either one `tryDrop` at a valid tile of the search, or nothing more, the result
`false` and the state untouched when no tile of the search is valid. -/
theorem dropItem_shape {L : Type} (ops : LevelOps L) (M : MiscOps) (s : DropState L)
    (clicked : Tile) :
    ∃ l : List (Pos × Bool),
      (∃ pos, isPosOk ops s.level pos = true ∧
        pos ∈ searchTiles M s.curPos (searchDir M s.curPos clicked) ∧
        dropItem ops M s clicked = (tryDrop ops s pos).after (checkCalls l)) ∨
      ((∀ pos ∈ searchTiles M s.curPos (searchDir M s.curPos clicked),
          isPosOk ops s.level pos = false) ∧
        dropItem ops M s clicked = { result := false, state := s, calls := checkCalls l }) := by
  by_cases hearly : clicked = Tile.ofPos s.curPos ∧ isPosOk ops s.level s.curPos = true
  · exact ⟨_, Or.inl ⟨s.curPos, hearly.2, by simp [searchTiles],
      dropItem_own_valid ops M s clicked hearly.1 hearly.2⟩⟩
  · have hreach : clicked ≠ Tile.ofPos s.curPos ∨ isPosOk ops s.level s.curPos = false := by
      by_cases hc : clicked = Tile.ofPos s.curPos
      · right
        cases hok : isPosOk ops s.level s.curPos
        · rfl
        · exact absurd ⟨hc, hok⟩ hearly
      · exact Or.inl hc
    rw [dropItem_search ops M s clicked hreach]
    generalize searchDir M s.curPos clicked = d0
    generalize (ownTileCheck s.curPos clicked).map (fun p => (p, false)) = own
    cases h0 : isPosOk ops s.level (loopCandidate M s.curPos d0 0)
    · cases h1 : isPosOk ops s.level (loopCandidate M s.curPos d0 (-1))
      · cases h2 : isPosOk ops s.level (loopCandidate M s.curPos d0 1)
        · rw [dropLoop_none ops M s d0 h0 h1 h2]
          cases hcur : isPosOk ops s.level s.curPos
          · refine ⟨own ++ [(loopCandidate M s.curPos d0 0, false),
              (loopCandidate M s.curPos d0 (-1), false),
              (loopCandidate M s.curPos d0 1, false), (s.curPos, false)], Or.inr ⟨?_, ?_⟩⟩
            · intro pos hpos
              simp only [searchTiles, List.mem_cons, List.mem_singleton, List.not_mem_nil,
                or_false] at hpos
              rcases hpos with h | h | h | h <;> subst h <;> assumption
            · simp [dropFallback, hcur, DropOutcome.after, checkCalls]
          · refine ⟨own ++ [(loopCandidate M s.curPos d0 0, false),
              (loopCandidate M s.curPos d0 (-1), false),
              (loopCandidate M s.curPos d0 1, false), (s.curPos, true)],
              Or.inl ⟨s.curPos, hcur, by simp [searchTiles], ?_⟩⟩
            simp [dropFallback, hcur, DropOutcome.after, checkCalls]
        · rw [dropLoop_third ops M s d0 h0 h1 h2, after_after, checkCalls_append]
          exact ⟨_, Or.inl ⟨_, h2, by simp [searchTiles], rfl⟩⟩
      · rw [dropLoop_second ops M s d0 h0 h1, after_after, checkCalls_append]
        exact ⟨_, Or.inl ⟨_, h1, by simp [searchTiles], rfl⟩⟩
    · rw [dropLoop_first ops M s d0 h0, after_after, checkCalls_append]
      exact ⟨_, Or.inl ⟨_, h0, by simp [searchTiles], rfl⟩⟩

/-- C4: every run of `Player::dropItem` either returns `true`, and then the
level took the cursor item at exactly one tile (the only call of
`Level::dropItem`) and the cursor slot holds the empty item, or returns `false`,
and then the cursor slot holds what it held before; the cursor slot is cleared
(`setCursorHeld` with the empty item) exactly when the result is `true`. -/
theorem dropItem_cursor_contract {L : Type} (ops : LevelOps L) (M : MiscOps) (s : DropState L)
    (clicked : Tile) :
    ((dropItem ops M s clicked).result = true →
      (dropItem ops M s clicked).state.cursorHeld = emptyItem ∧
      ∃ t : Tile, levelDropTiles (dropItem ops M s clicked).calls = [t] ∧
        ops.dropItem s.level s.cursorHeld t = (true, (dropItem ops M s clicked).state.level)) ∧
    ((dropItem ops M s clicked).result = false →
      (dropItem ops M s clicked).state.cursorHeld = s.cursorHeld) ∧
    (Call.setCursorHeld emptyItem ∈ (dropItem ops M s clicked).calls ↔
      (dropItem ops M s clicked).result = true) ∧
    (s.cursorHeld ≠ emptyItem →
      ((dropItem ops M s clicked).state.cursorHeld = emptyItem ↔
        (dropItem ops M s clicked).result = true)) := by
  obtain ⟨l, h | h⟩ := dropItem_shape ops M s clicked
  · obtain ⟨pos, _, _, heq⟩ := h
    rw [heq]
    have hres : ((tryDrop ops s pos).after (checkCalls l)).result = (tryDrop ops s pos).result :=
      rfl
    have hst : ((tryDrop ops s pos).after (checkCalls l)).state = (tryDrop ops s pos).state :=
      rfl
    have hcalls : ((tryDrop ops s pos).after (checkCalls l)).calls
        = checkCalls l ++ (tryDrop ops s pos).calls := rfl
    rw [hres, hst, hcalls, levelDropTiles_checkCalls, setCursorHeld_mem_checkCalls,
      tryDrop_cursorHeld, tryDrop_levelDropTiles, tryDrop_level]
    refine ⟨?_, ?_, tryDrop_setCursorHeld_mem ops s pos, ?_⟩
    · intro ht
      refine ⟨by simp [ht], Tile.ofPos pos, rfl, ?_⟩
      rw [tryDrop_result] at ht
      exact Prod.ext ht rfl
    · intro hf
      simp [hf]
    · intro hne
      cases hr : (tryDrop ops s pos).result
      · simp [hne]
      · simp
  · obtain ⟨_, heq⟩ := h
    rw [heq]
    refine ⟨by simp, by simp, ?_, ?_⟩
    · have h0 := setCursorHeld_mem_checkCalls l [] emptyItem
      rw [List.append_nil] at h0
      simp [h0]
    · intro hne
      simp [hne]

theorem checkedPositions_after_tryDrop {L : Type} (ops : LevelOps L) (s : DropState L)
    (pos : Pos) (l : List (Pos × Bool)) :
    checkedPositions ((tryDrop ops s pos).after (checkCalls l)).calls = l.map Prod.fst := by
  show checkedPositions (checkCalls l ++ (tryDrop ops s pos).calls) = _
  rw [checkedPositions_checkCalls, tryDrop_checkedPositions, List.append_nil]

theorem levelDropTiles_after_tryDrop {L : Type} (ops : LevelOps L) (s : DropState L)
    (pos : Pos) (l : List (Pos × Bool)) :
    levelDropTiles ((tryDrop ops s pos).after (checkCalls l)).calls = [Tile.ofPos pos] := by
  show levelDropTiles (checkCalls l ++ (tryDrop ops s pos).calls) = _
  rw [levelDropTiles_checkCalls, tryDrop_levelDropTiles]

theorem dropFallback_checkedPositions {L : Type} (ops : LevelOps L) (s : DropState L) :
    checkedPositions (dropFallback ops s).calls = [s.curPos] := by
  unfold dropFallback
  cases h : isPosOk ops s.level s.curPos
  · simp [checkedPositions]
  · simp only [if_true]
    exact checkedPositions_after_tryDrop ops s s.curPos [(s.curPos, true)]

theorem dropFallback_levelDropTiles {L : Type} (ops : LevelOps L) (s : DropState L) :
    levelDropTiles (dropFallback ops s).calls
      = if isPosOk ops s.level s.curPos then [Tile.ofPos s.curPos] else [] := by
  unfold dropFallback
  cases h : isPosOk ops s.level s.curPos
  · simp [levelDropTiles]
  · simp only [if_true]
    exact levelDropTiles_after_tryDrop ops s s.curPos [(s.curPos, true)]

theorem map_fst_own (own : List Pos) :
    (own.map (fun p => (p, false))).map Prod.fst = own := by
  induction own with
  | nil => rfl
  | cons p l ih => simp only [List.map_cons, ih]

/-- C5: when the run reaches the directional search (the clicked tile is not
the player's own, or it is and the own tile is not a valid drop site), with
`d0` the direction toward the clicked tile (south for the own tile), a
direction of the 8-way compass, the tiles examined are the neighbours `a`, `b`,
`c` of the player's position in the directions `d0`, `(d0 - 1) mod 8`,
`(d0 + 1) mod 8`, in that order, up to the first valid one, where the drop is
attempted; the own tile is examined after them only when none is valid. -/
theorem dropItem_search_order {L : Type} (ops : LevelOps L) (M : MiscOps) (s : DropState L)
    (clicked : Tile) (d0 : Int) (a b c : Pos)
    (hreach : clicked ≠ Tile.ofPos s.curPos ∨ isPosOk ops s.level s.curPos = false)
    (hd0 : d0 = searchDir M s.curPos clicked) (hcompass : 0 ≤ d0 ∧ d0 < 8)
    (ha : a = candidateAhead M s.curPos d0) (hb : b = candidateBefore M s.curPos d0)
    (hc : c = candidateAfter M s.curPos d0) :
    (isPosOk ops s.level a = true →
      checkedPositions (dropItem ops M s clicked).calls = ownTileCheck s.curPos clicked ++ [a] ∧
      levelDropTiles (dropItem ops M s clicked).calls = [Tile.ofPos a]) ∧
    (isPosOk ops s.level a = false → isPosOk ops s.level b = true →
      checkedPositions (dropItem ops M s clicked).calls
        = ownTileCheck s.curPos clicked ++ [a, b] ∧
      levelDropTiles (dropItem ops M s clicked).calls = [Tile.ofPos b]) ∧
    (isPosOk ops s.level a = false → isPosOk ops s.level b = false →
      isPosOk ops s.level c = true →
      checkedPositions (dropItem ops M s clicked).calls
        = ownTileCheck s.curPos clicked ++ [a, b, c] ∧
      levelDropTiles (dropItem ops M s clicked).calls = [Tile.ofPos c]) ∧
    (isPosOk ops s.level a = false → isPosOk ops s.level b = false →
      isPosOk ops s.level c = false →
      checkedPositions (dropItem ops M s clicked).calls
        = ownTileCheck s.curPos clicked ++ [a, b, c, s.curPos] ∧
      levelDropTiles (dropItem ops M s clicked).calls
        = if isPosOk ops s.level s.curPos then [Tile.ofPos s.curPos] else []) := by
  have ea : loopCandidate M s.curPos d0 0 = a := by
    rw [ha, loopCandidate, candidateAhead, rotateDir_zero hcompass.1 hcompass.2]
  have eb : loopCandidate M s.curPos d0 (-1) = b := by
    rw [hb, loopCandidate, candidateBefore, rotateDir_neg_one hcompass.1 hcompass.2]
  have ec : loopCandidate M s.curPos d0 1 = c := by
    rw [hc, loopCandidate, candidateAfter, rotateDir_one hcompass.1 hcompass.2]
  rw [dropItem_search ops M s clicked hreach, ← hd0]
  refine ⟨?_, ?_, ?_, ?_⟩
  · intro h0
    rw [← ea] at h0
    rw [dropLoop_first ops M s d0 h0, after_after, checkCalls_append,
      checkedPositions_after_tryDrop, levelDropTiles_after_tryDrop, ea]
    simp only [List.map_append, map_fst_own, List.map_cons, List.map_nil, and_self]
  · intro h0 h1
    rw [← ea] at h0
    rw [← eb] at h1
    rw [dropLoop_second ops M s d0 h0 h1, after_after, checkCalls_append,
      checkedPositions_after_tryDrop, levelDropTiles_after_tryDrop, ea, eb]
    simp only [List.map_append, map_fst_own, List.map_cons, List.map_nil, and_self]
  · intro h0 h1 h2
    rw [← ea] at h0
    rw [← eb] at h1
    rw [← ec] at h2
    rw [dropLoop_third ops M s d0 h0 h1 h2, after_after, checkCalls_append,
      checkedPositions_after_tryDrop, levelDropTiles_after_tryDrop, ea, eb, ec]
    simp only [List.map_append, map_fst_own, List.map_cons, List.map_nil, and_self]
  · intro h0 h1 h2
    rw [← ea] at h0
    rw [← eb] at h1
    rw [← ec] at h2
    rw [dropLoop_none ops M s d0 h0 h1 h2, after_after, checkCalls_append]
    show checkedPositions (checkCalls _ ++ (dropFallback ops s).calls) = _ ∧
      levelDropTiles (checkCalls _ ++ (dropFallback ops s).calls) = _
    rw [checkedPositions_checkCalls, levelDropTiles_checkCalls, dropFallback_checkedPositions,
      dropFallback_levelDropTiles, ea, eb, ec]
    simp only [List.map_append, map_fst_own, List.map_cons, List.map_nil, List.append_assoc,
      List.cons_append, List.nil_append, and_self]

/-- The wrap of C5: the player at `(5, 5)` stands on a tile that holds an item
and clicks it, so the search starts from south, direction 0; the neighbour to
the south, `(6, 6)`, is a wall, and the second candidate is the neighbour in
direction `(0 - 1) mod 8 = 7`, `(6, 5)`, where the item is dropped; direction 1
is not examined. -/
theorem dropItem_search_order_witness :
    checkedPositions
        (dropItem gridOps compass (playerAt55 blockedSouthLevel) { x := 5, y := 5 }).calls
      = [(5, 5), (6, 6), (6, 5)] ∧
    levelDropTiles
        (dropItem gridOps compass (playerAt55 blockedSouthLevel) { x := 5, y := 5 }).calls
      = [{ x := 6, y := 5 }] :=
  (dropItem_search_order gridOps compass (playerAt55 blockedSouthLevel) { x := 5, y := 5 } 0
    (6, 6) (6, 5) (5, 6) (Or.inr (by decide)) (by decide) (by decide) (by decide) (by decide)
    (by decide)).2.1 (by decide) (by decide)

theorem toString_eq_specClassToken (cls : PlayerClass) :
    cls.toString = specClassToken cls := by
  cases cls <;> rfl

theorem getClassCode_eq_specClassCode (cls : PlayerClass) :
    (getClassCode cls).toString = specClassCode cls := by
  cases cls <;> decide

theorem helper_eq_specKey (cls : PlayerClass) (a w : String) (isDie : Bool) (X : String) :
    helper cls a w isDie X
      = specKey (specClassToken cls) (specClassCode cls) a (if isDie then "n" else w) X := by
  unfold helper specKey
  simp only [toString_eq_specClassToken, getClassCode_eq_specClassCode]

theorem updateSprites_of_weaponCode (s : PlayerState) (w : String)
    (hw : weaponCode s.leftHand s.rightHand = some w) :
    updateSprites s = some
      { dead := helper s.combat.mPlayerClass (armourCode s.body) w true "dt"
        attack := helper s.combat.mPlayerClass (armourCode s.body) w false "at"
        hit := helper s.combat.mPlayerClass (armourCode s.body) w false "ht"
        walk := helper s.combat.mPlayerClass (armourCode s.body) w false
          (if inTown s then "wl" else "aw")
        idle := helper s.combat.mPlayerClass (armourCode s.body) w false
          (if inTown s then "st" else "as") } := by
  unfold updateSprites
  rw [hw]
  cases inTown s <;> simp

theorem updateSprites_of_assert (s : PlayerState)
    (hw : weaponCode s.leftHand s.rightHand = none) : updateSprites s = none := by
  unfold updateSprites
  rw [hw]

/-- C11: the armour code is "l" when the body slot is empty or holds light
armor, "m" when it holds medium armor and "h" when it holds heavy armor; an
item of any other type gives "l", so the code is always one of "l", "m", "h";
it is the armour code of the keys of `Player::updateSprites`. -/
theorem armourCode_cases (body : Item) :
    (body.isEmpty = true ∨ body.getType = ItemType.lightArmor → armourCode body = "l") ∧
    (body.isEmpty = false → body.getType = ItemType.mediumArmor → armourCode body = "m") ∧
    (body.isEmpty = false → body.getType = ItemType.heavyArmor → armourCode body = "h") ∧
    (body.getType ≠ ItemType.mediumArmor → body.getType ≠ ItemType.heavyArmor →
      armourCode body = "l") ∧
    armourCode body ∈ ["l", "m", "h"] ∧
    (∀ (s : PlayerState) (keys : AnimationKeys) (w : String), s.body = body →
      weaponCode s.leftHand s.rightHand = some w → updateSprites s = some keys →
      keys.attack = helper s.combat.mPlayerClass (armourCode body) w false "at") := by
  refine ⟨?_, ?_, ?_, ?_, ?_, ?_⟩
  · rintro (h | h)
    · simp [armourCode, h]
    · unfold armourCode
      cases body.isEmpty <;> simp [h]
  · intro he ht
    simp [armourCode, he, ht]
  · intro he ht
    simp [armourCode, he, ht]
  · intro hm hh
    obtain ⟨e, t, loc, c⟩ := body
    cases e <;> cases t <;> simp_all [armourCode]
  · obtain ⟨e, t, loc, c⟩ := body
    cases e <;> cases t <;> simp [armourCode]
  · intro s keys w hb hw hk
    rw [updateSprites_of_weaponCode s w hw, Option.some.injEq] at hk
    rw [← hk, hb]

/-- C12: when the weapon classification gives the code `w`, the keys requested
by `Player::updateSprites` are `plrgfx/T/caW/caWX.cl2` with `T` the class token,
`c` the class code, `a` the armour code, `X` the suffix "dt" for dead, "at" for
attack, "ht" for hit, and `W` the code `w` for attack, hit, walk and idle but
"n" for dead; the dead key is that of every state of the same class and body
item whose classification does not fail. -/
theorem updateSprites_keys (s : PlayerState) (w : String)
    (hw : weaponCode s.leftHand s.rightHand = some w) :
    ∃ keys : AnimationKeys, updateSprites s = some keys ∧
      keys.dead = specKey (specClassToken s.combat.mPlayerClass)
        (specClassCode s.combat.mPlayerClass) (armourCode s.body) "n" "dt" ∧
      keys.attack = specKey (specClassToken s.combat.mPlayerClass)
        (specClassCode s.combat.mPlayerClass) (armourCode s.body) w "at" ∧
      keys.hit = specKey (specClassToken s.combat.mPlayerClass)
        (specClassCode s.combat.mPlayerClass) (armourCode s.body) w "ht" ∧
      (∃ X : String, keys.walk = specKey (specClassToken s.combat.mPlayerClass)
        (specClassCode s.combat.mPlayerClass) (armourCode s.body) w X) ∧
      (∃ X : String, keys.idle = specKey (specClassToken s.combat.mPlayerClass)
        (specClassCode s.combat.mPlayerClass) (armourCode s.body) w X) ∧
      (∀ (s2 : PlayerState) (keys2 : AnimationKeys),
        s2.combat.mPlayerClass = s.combat.mPlayerClass → s2.body = s.body →
        updateSprites s2 = some keys2 → keys2.dead = keys.dead) := by
  refine ⟨_, updateSprites_of_weaponCode s w hw, ?_, ?_, ?_,
    ⟨if inTown s then "wl" else "aw", ?_⟩, ⟨if inTown s then "st" else "as", ?_⟩, ?_⟩
  · simp only [helper_eq_specKey, if_true]
  · simp only [helper_eq_specKey]; rfl
  · simp only [helper_eq_specKey]; rfl
  · simp only [helper_eq_specKey]; rfl
  · simp only [helper_eq_specKey]; rfl
  · intro s2 keys2 hc hb hk
    cases hw2 : weaponCode s2.leftHand s2.rightHand with
    | none =>
      rw [updateSprites_of_assert s2 hw2] at hk
      exact absurd hk (by simp)
    | some w2 =>
      rw [updateSprites_of_weaponCode s2 w2 hw2, Option.some.injEq] at hk
      rw [← hk, hc, hb]
      simp only [helper, if_true]

/-- A warrior in heavy armor with sword and shield: the attack key carries the
weapon code "d", the dead key the code "n". -/
theorem updateSprites_keys_witness :
    ∃ keys : AnimationKeys,
      updateSprites (mkState PlayerClass.warrior
        (mkItem ItemType.heavyArmor (ItemEquipType.other 1))
        (mkItem ItemType.sword ItemEquipType.oneHanded)
        (mkItem ItemType.shield ItemEquipType.oneHanded) none) = some keys ∧
      keys.dead = "plrgfx/warrior/whn/whndt.cl2" ∧
      keys.attack = "plrgfx/warrior/whd/whdat.cl2" ∧
      keys.hit = "plrgfx/warrior/whd/whdht.cl2" := by
  obtain ⟨keys, hk, hd, ha, hh, _⟩ := updateSprites_keys (mkState PlayerClass.warrior
    (mkItem ItemType.heavyArmor (ItemEquipType.other 1))
    (mkItem ItemType.sword ItemEquipType.oneHanded)
    (mkItem ItemType.shield ItemEquipType.oneHanded) none) "d" (by decide)
  refine ⟨keys, hk, ?_, ?_, ?_⟩
  · rw [hd]; decide
  · rw [ha]; decide
  · rw [hh]; decide

/-- C13: the walk and idle keys end in "wl" and "st" (before the extension)
when the player has a level and that level is a town, and in "aw" and "as"
otherwise, without a level included; the dead, attack and hit keys are those of
every state with the same class, body and hand items, whatever its level. -/
theorem updateSprites_town_branch (s : PlayerState) (keys : AnimationKeys) (w : String)
    (hw : weaponCode s.leftHand s.rightHand = some w) (hk : updateSprites s = some keys) :
    (s.level = some true →
      keys.walk = specKey (specClassToken s.combat.mPlayerClass)
        (specClassCode s.combat.mPlayerClass) (armourCode s.body) w "wl" ∧
      keys.idle = specKey (specClassToken s.combat.mPlayerClass)
        (specClassCode s.combat.mPlayerClass) (armourCode s.body) w "st") ∧
    (s.level ≠ some true →
      keys.walk = specKey (specClassToken s.combat.mPlayerClass)
        (specClassCode s.combat.mPlayerClass) (armourCode s.body) w "aw" ∧
      keys.idle = specKey (specClassToken s.combat.mPlayerClass)
        (specClassCode s.combat.mPlayerClass) (armourCode s.body) w "as") ∧
    (∀ (s2 : PlayerState) (keys2 : AnimationKeys),
      s2.combat.mPlayerClass = s.combat.mPlayerClass → s2.body = s.body →
      s2.leftHand = s.leftHand → s2.rightHand = s.rightHand →
      updateSprites s2 = some keys2 →
      keys2.dead = keys.dead ∧ keys2.attack = keys.attack ∧ keys2.hit = keys.hit) := by
  rw [updateSprites_of_weaponCode s w hw, Option.some.injEq] at hk
  subst hk
  refine ⟨?_, ?_, ?_⟩
  · intro hl
    have ht : inTown s = true := by simp [inTown, hl]
    simp only [ht, if_true, helper_eq_specKey]
    exact ⟨rfl, rfl⟩
  · intro hl
    have ht : inTown s = false := by
      unfold inTown
      cases hlv : s.level with
      | none => rfl
      | some t =>
        cases t
        · rfl
        · exact absurd hlv hl
    simp only [ht, helper_eq_specKey]
    exact ⟨rfl, rfl⟩
  · intro s2 keys2 hc hb hl hr hk2
    have hw2 : weaponCode s2.leftHand s2.rightHand = some w := by rw [hl, hr, hw]
    rw [updateSprites_of_weaponCode s2 w hw2, Option.some.injEq] at hk2
    subst hk2
    simp only [hc, hb, and_self]

/-- The scenario of C13: a sorcerer with both hands empty and no armor in a
town walks with "plrgfx/sorceror/sln/slnwl.cl2" and idles with
"plrgfx/sorceror/sln/slnst.cl2", the weapon token being "n". -/
theorem updateSprites_town_branch_witness :
    weaponCode townSorcerer.leftHand townSorcerer.rightHand = some "n" ∧
    updateSprites townSorcerer = some townSorcererKeys ∧
    townSorcererKeys.walk = "plrgfx/sorceror/sln/slnwl.cl2" ∧
    townSorcererKeys.idle = "plrgfx/sorceror/sln/slnst.cl2" ∧
    specKey (specClassToken townSorcerer.combat.mPlayerClass)
      (specClassCode townSorcerer.combat.mPlayerClass) (armourCode townSorcerer.body) "n" "wl"
      = "plrgfx/sorceror/sln/slnwl.cl2" ∧
    specKey (specClassToken townSorcerer.combat.mPlayerClass)
      (specClassCode townSorcerer.combat.mPlayerClass) (armourCode townSorcerer.body) "n" "st"
      = "plrgfx/sorceror/sln/slnst.cl2" :=
  ⟨by decide, by decide, rfl, rfl,
    ((updateSprites_town_branch townSorcerer townSorcererKeys "n" (by decide)
      (by decide)).1 (by decide)).1.symm,
    ((updateSprites_town_branch townSorcerer townSorcererKeys "n" (by decide)
      (by decide)).1 (by decide)).2.symm⟩

theorem twoHandCode_comm (l r : Item) (w : String) :
    twoHandCode l r w = twoHandCode r l w := by
  unfold twoHandCode
  have h1 : ((l.getType = ItemType.sword ∧ r.getType = ItemType.shield) ∨
        (l.getType = ItemType.shield ∧ r.getType = ItemType.sword)) ↔
      ((r.getType = ItemType.sword ∧ l.getType = ItemType.shield) ∨
        (r.getType = ItemType.shield ∧ l.getType = ItemType.sword)) := by
    constructor <;> rintro (⟨a, b⟩ | ⟨a, b⟩)
    · exact Or.inr ⟨b, a⟩
    · exact Or.inl ⟨b, a⟩
    · exact Or.inr ⟨b, a⟩
    · exact Or.inl ⟨b, a⟩
  have h2 : (l.getType = ItemType.bow ∧ r.getType = ItemType.bow) ↔
      (r.getType = ItemType.bow ∧ l.getType = ItemType.bow) := And.comm
  have h3 : (l.getType = ItemType.staff ∧ r.getType = ItemType.staff) ↔
      (r.getType = ItemType.staff ∧ l.getType = ItemType.staff) := And.comm
  have h4 : (l.getType = ItemType.mace ∨ r.getType = ItemType.mace) ↔
      (r.getType = ItemType.mace ∨ l.getType = ItemType.mace) := Or.comm
  simp only [h1, h2, h3, h4]

/-- C14: a sword and a shield give the weapon code "d" in either hand order,
and for every pair of hand contents, empty or not, swapping the hands leaves the
outcome of the weapon classification unchanged: the same code, or the failed
assertion in both orders. -/
theorem weaponCode_swap (l r : Item) :
    weaponCode l r = weaponCode r l ∧
    (weaponCode l r = none ↔ weaponCode r l = none) ∧
    (l.isEmpty = false → r.isEmpty = false → l.getType = ItemType.sword →
      r.getType = ItemType.shield →
      weaponCode l r = some "d" ∧ weaponCode r l = some "d") := by
  have hswap : weaponCode l r = weaponCode r l := by
    cases hl : l.isEmpty <;> cases hr : r.isEmpty
    · rw [weaponCode_two_hands_eq l r hl hr, weaponCode_two_hands_eq r l hr hl,
        twoHandCode_comm l r]
    · rw [weaponCode_left_only l r hl hr, weaponCode_right_only r l hr hl]
    · rw [weaponCode_right_only l r hl hr, weaponCode_left_only r l hr hl]
    · rw [weaponCode_both_empty l r hl hr, weaponCode_both_empty r l hr hl]
  refine ⟨hswap, by rw [hswap], ?_⟩
  intro hl hr hs hsh
  rw [← hswap, and_self, weaponCode_two_hands_eq l r hl hr]
  unfold twoHandCode
  rw [if_pos (Or.inl ⟨hs, hsh⟩)]
  decide

/-- C18: two player states with the same class, the same items in the body,
left-hand and right-hand slots and the same town flag get the same outcome from
`Player::updateSprites`: the same five keys, or the failed assertion for both,
whatever their stats, position, cursor item, other items, target and level
otherwise. -/
theorem updateSprites_depends_only_on (s1 s2 : PlayerState)
    (hclass : s1.combat.mPlayerClass = s2.combat.mPlayerClass) (hbody : s1.body = s2.body)
    (hleft : s1.leftHand = s2.leftHand) (hright : s1.rightHand = s2.rightHand)
    (htown : inTown s1 = inTown s2) :
    updateSprites s1 = updateSprites s2 := by
  unfold updateSprites
  rw [hclass, hbody, hleft, hright, htown]

/-- Two rogues with a bow in the left hand, one in a level that is not a town,
the other without a level and with other stats, position, cursor item, pack and
target, get the same keys. -/
theorem updateSprites_depends_only_on_witness :
    updateSprites fieldRogue = updateSprites otherFieldRogue ∧
    (updateSprites fieldRogue).map (fun k => k.walk) = some "plrgfx/rogue/rlb/rlbaw.cl2" ∧
    fieldRogue.pos ≠ otherFieldRogue.pos ∧
    fieldRogue.cursorHeld ≠ otherFieldRogue.cursorHeld ∧
    fieldRogue.combat.mDexterity ≠ otherFieldRogue.combat.mDexterity :=
  ⟨updateSprites_depends_only_on fieldRogue otherFieldRogue rfl rfl rfl rfl rfl,
    by decide, by decide, by decide, by decide⟩

/-! ## Critical hits -/

/-- The shape of a run of `Player::dropItem`, with the check that precedes the
drop: the tile handed to the level is among the checked ones, with the answer
`true`. -/
theorem dropItem_shape_checked {L : Type} (ops : LevelOps L) (M : MiscOps) (s : DropState L)
    (clicked : Tile) :
    ∃ l : List (Pos × Bool),
      (∃ pos, isPosOk ops s.level pos = true ∧ (pos, true) ∈ l ∧
        pos ∈ searchTiles M s.curPos (searchDir M s.curPos clicked) ∧
        dropItem ops M s clicked = (tryDrop ops s pos).after (checkCalls l)) ∨
      dropItem ops M s clicked = { result := false, state := s, calls := checkCalls l } := by
  by_cases hearly : clicked = Tile.ofPos s.curPos ∧ isPosOk ops s.level s.curPos = true
  · exact ⟨_, Or.inl ⟨s.curPos, hearly.2, by simp, by simp [searchTiles],
      dropItem_own_valid ops M s clicked hearly.1 hearly.2⟩⟩
  · have hreach : clicked ≠ Tile.ofPos s.curPos ∨ isPosOk ops s.level s.curPos = false := by
      by_cases hc : clicked = Tile.ofPos s.curPos
      · right
        cases hok : isPosOk ops s.level s.curPos
        · rfl
        · exact absurd ⟨hc, hok⟩ hearly
      · exact Or.inl hc
    rw [dropItem_search ops M s clicked hreach]
    generalize searchDir M s.curPos clicked = d0
    generalize (ownTileCheck s.curPos clicked).map (fun p => (p, false)) = own
    cases h0 : isPosOk ops s.level (loopCandidate M s.curPos d0 0)
    · cases h1 : isPosOk ops s.level (loopCandidate M s.curPos d0 (-1))
      · cases h2 : isPosOk ops s.level (loopCandidate M s.curPos d0 1)
        · rw [dropLoop_none ops M s d0 h0 h1 h2]
          cases hcur : isPosOk ops s.level s.curPos
          · refine ⟨own ++ [(loopCandidate M s.curPos d0 0, false),
              (loopCandidate M s.curPos d0 (-1), false),
              (loopCandidate M s.curPos d0 1, false), (s.curPos, false)], Or.inr ?_⟩
            simp [dropFallback, hcur, DropOutcome.after, checkCalls]
          · refine ⟨own ++ [(loopCandidate M s.curPos d0 0, false),
              (loopCandidate M s.curPos d0 (-1), false),
              (loopCandidate M s.curPos d0 1, false), (s.curPos, true)],
              Or.inl ⟨s.curPos, hcur, by simp, by simp [searchTiles], ?_⟩⟩
            simp [dropFallback, hcur, DropOutcome.after, checkCalls]
        · rw [dropLoop_third ops M s d0 h0 h1 h2, after_after, checkCalls_append]
          exact ⟨_, Or.inl ⟨_, h2, by simp, by simp [searchTiles], rfl⟩⟩
      · rw [dropLoop_second ops M s d0 h0 h1, after_after, checkCalls_append]
        exact ⟨_, Or.inl ⟨_, h1, by simp, by simp [searchTiles], rfl⟩⟩
    · rw [dropLoop_first ops M s d0 h0, after_after, checkCalls_append]
      exact ⟨_, Or.inl ⟨_, h0, by simp, by simp [searchTiles], rfl⟩⟩

/-- C19: a run of `Player::dropItem` calls `Level::dropItem` at most once, and
a tile it passes to it was checked before with the answer valid (passable for
the player and holding no item) and is the player's own tile or one of the
three candidates of the search; so the clicked tile is used only when it is one
of these four tiles. -/
theorem dropItem_level_calls {L : Type} (ops : LevelOps L) (M : MiscOps) (s : DropState L)
    (clicked : Tile) :
    (levelDropTiles (dropItem ops M s clicked).calls).length ≤ 1 ∧
    (∀ t ∈ levelDropTiles (dropItem ops M s clicked).calls,
      ∃ pos ∈ searchTiles M s.curPos (searchDir M s.curPos clicked),
        t = Tile.ofPos pos ∧ isPosOk ops s.level pos = true ∧
        Call.isPosOk pos true ∈ (dropItem ops M s clicked).calls) ∧
    (clicked ∈ levelDropTiles (dropItem ops M s clicked).calls →
      ∃ pos ∈ searchTiles M s.curPos (searchDir M s.curPos clicked),
        clicked = Tile.ofPos pos) ∧
    searchTiles M s.curPos (searchDir M s.curPos clicked)
      = [M.getNextPosByDir s.curPos (rotateDir (searchDir M s.curPos clicked) 0),
        M.getNextPosByDir s.curPos (rotateDir (searchDir M s.curPos clicked) (-1)),
        M.getNextPosByDir s.curPos (rotateDir (searchDir M s.curPos clicked) 1), s.curPos] := by
  have key : (levelDropTiles (dropItem ops M s clicked).calls).length ≤ 1 ∧
      (∀ t ∈ levelDropTiles (dropItem ops M s clicked).calls,
        ∃ pos ∈ searchTiles M s.curPos (searchDir M s.curPos clicked),
          t = Tile.ofPos pos ∧ isPosOk ops s.level pos = true ∧
          Call.isPosOk pos true ∈ (dropItem ops M s clicked).calls) := by
    obtain ⟨l, h | h⟩ := dropItem_shape_checked ops M s clicked
    · obtain ⟨pos, hok, hl, hmem, heq⟩ := h
      rw [heq, levelDropTiles_after_tryDrop]
      refine ⟨by simp, ?_⟩
      intro t ht
      rw [List.mem_singleton] at ht
      refine ⟨pos, hmem, ht, hok, ?_⟩
      show Call.isPosOk pos true ∈ checkCalls l ++ (tryDrop ops s pos).calls
      apply List.mem_append_left
      unfold checkCalls
      exact List.mem_map.mpr ⟨(pos, true), hl, rfl⟩
    · rw [h]
      have h0 := levelDropTiles_checkCalls l []
      rw [List.append_nil] at h0
      show (levelDropTiles (checkCalls l)).length ≤ 1 ∧
        ∀ t ∈ levelDropTiles (checkCalls l), _
      rw [h0]
      exact ⟨by simp [levelDropTiles], fun t ht => absurd ht (by simp [levelDropTiles])⟩
  refine ⟨key.1, key.2, ?_, rfl⟩
  intro hc
  obtain ⟨pos, hmem, ht, _⟩ := key.2 clicked hc
  exact ⟨pos, hmem, ht⟩

/-! ## Monotonicity of the hit threshold -/

theorem tdiv_two_mono {x y : Int} (h : x ≤ y) : x.tdiv 2 ≤ y.tdiv 2 := by
  rw [tdiv_eq_ite x 2 (by decide), tdiv_eq_ite y 2 (by decide)]
  split_ifs <;> omega

theorem clamp_mono {u v : Int} (h : u ≤ v) : clamp u 5 95 ≤ clamp v 5 95 := by
  unfold clamp
  split_ifs <;> omega

/-- C20: with no 32-bit overflow on either side, the hit threshold does not
decrease when the dexterity (negative values included), the armor penetration
or the character level grows, when the target armor shrinks, or when the class
becomes warrior; so for every roll an attack that hits still hits after such a
change, and a warrior hits whenever a rogue or sorcerer with the same stats
does. -/
theorem hitThreshold_mono (p q : Player) (armorP armorQ : Int)
    (hp : checkHitNoOverflow p armorP) (hq : checkHitNoOverflow q armorQ)
    (hdex : p.mDexterity ≤ q.mDexterity) (hpen : p.armorPenetration ≤ q.armorPenetration)
    (hlvl : p.characterLevel ≤ q.characterLevel) (harm : armorQ ≤ armorP)
    (hcls : p.mPlayerClass = q.mPlayerClass ∨ q.mPlayerClass = PlayerClass.warrior) :
    hitThreshold p armorP ≤ hitThreshold q armorQ ∧
    ∀ roll : Int, checkHit p armorP roll = true → checkHit q armorQ roll = true := by
  have hle : hitThreshold p armorP ≤ hitThreshold q armorQ := by
    unfold hitThreshold
    apply clamp_mono
    rw [toHitRaw_of_noOverflow p armorP hp, toHitRaw_of_noOverflow q armorQ hq]
    have hd := tdiv_two_mono hdex
    have hc : (if p.mPlayerClass = PlayerClass.warrior then (20 : Int) else 0)
        ≤ (if q.mPlayerClass = PlayerClass.warrior then (20 : Int) else 0) := by
      rcases hcls with h | h
      · rw [h]
      · rw [h, if_pos rfl]; split_ifs <;> omega
    omega
  refine ⟨hle, ?_⟩
  intro roll hr
  unfold checkHit at hr ⊢
  rw [decide_eq_true_iff] at hr ⊢
  omega

/-- The scenario of C1 for a rogue and for a warrior: the rogue's threshold
against armor 20 is 65, the warrior's 85, and a roll of 64 hits for both. -/
theorem hitThreshold_mono_witness :
    hitThreshold scenarioRogue 20 = 65 ∧ hitThreshold scenarioWarrior 20 = 85 ∧
    hitThreshold scenarioRogue 20 ≤ hitThreshold scenarioWarrior 20 ∧
    (checkHit scenarioRogue 20 64 = true → checkHit scenarioWarrior 20 64 = true) :=
  ⟨by decide, by decide,
    (hitThreshold_mono scenarioRogue scenarioWarrior 20 20 (by decide) (by decide) (by decide)
      (by decide) (by decide) (by decide) (Or.inr rfl)).1,
    (hitThreshold_mono scenarioRogue scenarioWarrior 20 20 (by decide) (by decide) (by decide)
      (by decide) (by decide) (by decide) (Or.inr rfl)).2 64⟩

/-! ## Persistence -/

theorem payload_append (a b : List SaveEntry) : payload (a ++ b) = payload a ++ payload b := by
  unfold payload
  exact List.filter_append a b

theorem castPlayerClass_classValue {A St : Type} (P : SaveParts A St) (cls : PlayerClass) :
    castPlayerClass P (P.classValue cls) = some cls := by
  have hwr : P.classValue PlayerClass.rogue ≠ P.classValue PlayerClass.warrior :=
    fun h => absurd (P.classValue_injective h) (by decide)
  have hws : P.classValue PlayerClass.sorcerer ≠ P.classValue PlayerClass.warrior :=
    fun h => absurd (P.classValue_injective h) (by decide)
  have hrs : P.classValue PlayerClass.sorcerer ≠ P.classValue PlayerClass.rogue :=
    fun h => absurd (P.classValue_injective h) (by decide)
  unfold castPlayerClass
  cases cls
  · simp
  · simp [hwr]
  · simp [hws, hrs]

/-- The stream `Player::save` leaves: the category "Player" around the base
actor, the class and the stats block, in this order. -/
theorem savePlayer_eq {A St : Type} (P : SaveParts A St) (pl : SavedPlayer A St)
    (saver : List SaveEntry) :
    savePlayer P pl saver
      = saver ++ [SaveEntry.startCategory "Player"] ++ P.actorSave pl.actor
          ++ [SaveEntry.int32 (P.classValue pl.mPlayerClass)] ++ P.statsSave pl.mPlayerStats
          ++ [SaveEntry.endCategory "Player"] := rfl

theorem payload_savePlayer {A St : Type} (P : SaveParts A St) (pl : SavedPlayer A St) :
    payload (savePlayer P pl [])
      = payload (P.actorSave pl.actor)
          ++ SaveEntry.int32 (P.classValue pl.mPlayerClass) :: payload (P.statsSave pl.mPlayerStats)
      := by
  rw [savePlayer_eq]
  simp only [payload_append, List.nil_append]
  simp [payload, SaveEntry.isValue]

/-- C16: when the save and load of the base actor and of the stats block are
each a round trip, loading a player from the stream `Player::save` produced
gives the same class and the same stats (and the same base actor), and leaves
what follows in the stream; the loader reads the fields in the order in which
they were written: base actor, class as `int32_t`, stats block. -/
theorem loadPlayer_savePlayer {A St : Type} (P : SaveParts A St) (pl : SavedPlayer A St)
    (rest : List SaveEntry)
    (hactor : ∀ (a : A) (r : List SaveEntry),
      P.actorLoad (payload (P.actorSave a) ++ r) = some (a, r))
    (hstats : ∀ (st : St) (r : List SaveEntry),
      P.statsLoad (payload (P.statsSave st) ++ r) = some (st, r)) :
    loadPlayer P (payload (savePlayer P pl []) ++ rest)
      = some ({ actor := pl.actor, mPlayerClass := some pl.mPlayerClass,
                mPlayerStats := pl.mPlayerStats }, rest) ∧
    payload (savePlayer P pl [])
      = payload (P.actorSave pl.actor)
          ++ SaveEntry.int32 (P.classValue pl.mPlayerClass)
            :: payload (P.statsSave pl.mPlayerStats) := by
  refine ⟨?_, payload_savePlayer P pl⟩
  rw [payload_savePlayer, List.append_assoc]
  unfold loadPlayer
  rw [hactor]
  simp only [List.cons_append, loadInt32]
  rw [hstats, castPlayerClass_classValue]

theorem demoParts_actor_roundtrip (a : Int) (r : List SaveEntry) :
    demoParts.actorLoad (payload (demoParts.actorSave a) ++ r) = some (a, r) := rfl

theorem demoParts_stats_roundtrip (st : Int × Int) (r : List SaveEntry) :
    demoParts.statsLoad (payload (demoParts.statsSave st) ++ r) = some (st, r) := rfl

/-- The sorcerer with actor 7 and stats `(25, 40)` is loaded back from its own
save stream, whose values are 7, the class value 2, 25 and 40. -/
theorem loadPlayer_savePlayer_witness :
    loadPlayer demoParts (payload (savePlayer demoParts demoPlayer []) ++ [])
      = some ({ actor := 7, mPlayerClass := some PlayerClass.sorcerer,
                mPlayerStats := (25, 40) }, []) ∧
    payload (savePlayer demoParts demoPlayer [])
      = [SaveEntry.int32 7, SaveEntry.int32 2, SaveEntry.int32 25, SaveEntry.int32 40] :=
  ⟨(loadPlayer_savePlayer demoParts demoPlayer [] demoParts_actor_roundtrip
      demoParts_stats_roundtrip).1, by decide⟩

/-- C17 (as stated, refuted): in the stream `Player::save` writes for the
sorcerer with actor 7, the entries of the base actor stand inside the category
"Player", between its start and the class: the stream is not the category
around the class and the stats block only. -/
theorem savePlayer_ne_specSave :
    savePlayer demoParts demoPlayer []
      = [SaveEntry.startCategory "Player", SaveEntry.startCategory "Actor", SaveEntry.int32 7,
          SaveEntry.endCategory "Actor", SaveEntry.int32 2, SaveEntry.int32 25,
          SaveEntry.int32 40, SaveEntry.endCategory "Player"] ∧
    specSave demoParts demoPlayer []
      = [SaveEntry.startCategory "Player", SaveEntry.int32 2, SaveEntry.int32 25,
          SaveEntry.int32 40, SaveEntry.endCategory "Player"] ∧
    savePlayer demoParts demoPlayer [] ≠ specSave demoParts demoPlayer [] := by
  decide

/-- C17 (amended): `Player::save` starts the category "Player", then writes
the serialization of the base actor, then the class as an `int32_t`, then the
serialization of the stats block, then ends the category: the scope brackets
exactly these three writes, and the class and the stats block are written in
this order, next to each other, as the last writes inside it. -/
theorem savePlayer_scope {A St : Type} (P : SaveParts A St) (pl : SavedPlayer A St)
    (saver : List SaveEntry) :
    savePlayer P pl saver
      = saver ++ ([SaveEntry.startCategory "Player"] ++ P.actorSave pl.actor
          ++ ([SaveEntry.int32 (P.classValue pl.mPlayerClass)] ++ P.statsSave pl.mPlayerStats)
          ++ [SaveEntry.endCategory "Player"]) ∧
    (P.actorSave pl.actor = [] → savePlayer P pl saver = specSave P pl saver) := by
  refine ⟨?_, ?_⟩
  · rw [savePlayer_eq]
    simp only [List.append_assoc]
  · intro h
    rw [savePlayer_eq, h]
    simp [specSave]

end FAWorld
